import Mathlib

/-!
# ItemFactory: the object cache of the inventory subsystem

A shallow embedding of `src/src/server/inventory/ItemFactory.cpp`.

* The four member maps `m_categories`, `m_groups`, `m_types`, `m_items` are key-ordered
  association lists (`IdMap`), with the `std::map` operations the source uses
  (`find`, `insert`, `operator[]` assignment, `erase`).
* Category, Group and Type nodes are immutable once built, so the taxonomy maps store the
  node values themselves.
* Entities are mutable and shared, so `m_items` stores pointers into a heap of
  `InventoryItem` objects; a pointer is the index of its heap cell.
* Everything the factory calls but does not define (the per-kind `Load` and `Spawn`
  functions, `LoadContents`, `Save`, the bloodline query) is a field of `Store`, a parameter
  of every operation.  Each call is also appended to an event log, so that "invokes the
  loader exactly once" is a statement about the log.
* An operation that dereferences an entity pointer returns a `Result`: `fault` stands for
  the undefined behaviour of dereferencing a pointer that denotes no live object.
* Statements over runs are about `runOps` (a sequence of operations) and `World.run`
  (operations interleaved with callers releasing the references they hold).
-/

namespace EVEmu

/-! ## Keyed maps -/

/-- Entries of a `std::map<uint32, T>`, listed in key order. -/
abbrev IdMap (α : Type) := List (Nat × α)

namespace IdMap

/-- Lookup as done by `std::map::find`: the value stored under `k`, if any. -/
def find {α : Type} : IdMap α → Nat → Option α
  | [], _ => none
  | (k', v) :: rest, k => if k' = k then some v else find rest k

/-- Puts the entry `(k, v)` in front of the first entry with a larger key. -/
def place {α : Type} (k : Nat) (v : α) : IdMap α → IdMap α
  | [] => [(k, v)]
  | (k', v') :: rest =>
      if k < k' then (k, v) :: (k', v') :: rest else (k', v') :: place k v rest

/-- Insertion as done by `std::map::insert(std::make_pair(k, v)).first`: a present key keeps
its entry.  Returns the map and the value of the entry the returned iterator points at. -/
def insert {α : Type} (m : IdMap α) (k : Nat) (v : α) : IdMap α × α :=
  match find m k with
  | some old => (m, old)
  | none => (place k v m, v)

/-- Removal of the entry stored under `k` (`std::map::erase` on the iterator found for `k`). -/
def erase {α : Type} (m : IdMap α) (k : Nat) : IdMap α :=
  m.filter (fun e => decide (e.1 ≠ k))

/-- Assignment `m[k] = v`: the entry under `k` is created or overwritten. -/
def assign {α : Type} (m : IdMap α) (k : Nat) (v : α) : IdMap α :=
  match find m k with
  | some _ => m.map (fun e => (e.1, if e.1 = k then v else e.2))
  | none => place k v m

end IdMap

/-! ## Taxonomy nodes -/

/-- A Category node: its id and the catalog data read for it. -/
structure Category where
  id : Nat
  data : Nat
deriving DecidableEq, Repr

/-- A Group node. -/
structure Group where
  id : Nat
  data : Nat
deriving DecidableEq, Repr

/-- Concrete classes of the nodes kept in `m_types`. -/
inductive TypeKind where
  | type
  | blueprintType
  | characterType
  | shipType
deriving DecidableEq, Repr

/-- A node of `m_types`: the class it was constructed as, its id and its catalog data. -/
structure TypeNode where
  kind : TypeKind
  id : Nat
  data : Nat
deriving DecidableEq, Repr

/-- A `const K *` handed to a caller: the class the pointer is typed as, and the node it
points at.  `static_cast` sets `presentedAs` without looking at `node.kind`. -/
structure TypeRef where
  presentedAs : TypeKind
  node : TypeNode
deriving DecidableEq, Repr

/-! ## Entities and the heap -/

/-- Concrete classes of the entities kept in `m_items`. -/
inductive ItemKind where
  | item
  | blueprint
  | character
deriving DecidableEq, Repr

/-- An entity object: the class it was constructed as, its item id, its reference count,
the contents-loaded flag and the rest of its state. -/
structure InventoryItem where
  kind : ItemKind
  itemID : Nat
  refCount : Nat
  contentsLoaded : Bool
  data : Nat
deriving DecidableEq, Repr

/-- A pointer to an entity: the index of its heap cell. -/
abbrev Ptr := Nat

/-- The entity objects allocated so far, by address. -/
abbrev Heap := List InventoryItem

/-- A `K *` handed to a caller: the class the pointer is typed as, and the address. -/
structure ItemRef where
  presentedAs : ItemKind
  ptr : Ptr
deriving DecidableEq, Repr

/-- Modelled from the spec: the reference-counted base of `InventoryItem` is declared outside
the two source files.  Per the data model an entity is destroyed when its reference count
reaches zero, so a cell is a live object exactly when it is allocated and its count is
positive; `deref` is the access `p->` and yields nothing for any other pointer. -/
def deref (h : Heap) (p : Ptr) : Option InventoryItem :=
  match h[p]? with
  | some o => if o.refCount = 0 then none else some o
  | none => none

/-- Result of `new`: the object is placed in a fresh cell. -/
def alloc (h : Heap) (o : InventoryItem) : Ptr × Heap :=
  (h.length, h ++ [o])

/-- Spawn arguments (`ItemData &`): the factory passes them on without reading them. -/
structure ItemData where
  code : Nat
deriving DecidableEq, Repr

/-- Spawn arguments (`BlueprintData &`). -/
structure BlueprintData where
  code : Nat
deriving DecidableEq, Repr

/-- Spawn arguments (`CharacterData &`). -/
structure CharacterData where
  code : Nat
deriving DecidableEq, Repr

/-- Spawn arguments (`CharacterAppearance &`). -/
structure CharacterAppearance where
  code : Nat
deriving DecidableEq, Repr

/-- Spawn arguments (`CorpMemberInfo &`). -/
structure CorpMemberInfo where
  code : Nat
deriving DecidableEq, Repr

/-! ## Events, state and the backing store -/

/-- Calls the factory makes on its collaborators, in the order made. -/
inductive Event where
  | categoryLoad (category : Nat)
  | groupLoad (groupID : Nat)
  | typeLoad (k : TypeKind) (typeID : Nat)
  | bloodlineQuery (bloodlineID : Nat)
  | itemLoad (k : ItemKind) (itemID : Nat) (recurse : Bool)
  | itemSpawn (k : ItemKind)
  | loadContents (p : Ptr) (recursive : Bool)
  | save (p : Ptr) (recursive : Bool)
  | incRef (p : Ptr)
  | decRef (p : Ptr)
  | deleteType (n : TypeNode)
  | deleteGroup (n : Group)
  | deleteCategory (n : Category)
  | codelogError (itemID : Nat)
deriving DecidableEq, Repr

/-- The factory members, the entity heap, the state `db` of the backing store and the log
of calls made so far. -/
structure State (D : Type) where
  m_categories : IdMap Category
  m_groups : IdMap Group
  m_types : IdMap TypeNode
  m_items : IdMap Ptr
  heap : Heap
  db : D
  log : List Event
deriving DecidableEq, Repr

/-- Modelled from the spec: the backing-store collaborator of section 6, whose code is outside
the two source files.  One field per operation the factory calls: `load(id) -> value | absent`
per kind, `spawn(data...) -> value | absent` per entity kind, `persist(entity, recursive)`,
the contents loader and the bloodline query.  Each reads and may change only the store state
`D`: by section 4.3 a loader never itself touches the cache. -/
structure Store (D : Type) where
  categoryLoad : D → Nat → Option Category × D
  groupLoad : D → Nat → Option Group × D
  typeLoad : TypeKind → D → Nat → Option TypeNode × D
  characterTypeByBloodline : D → Nat → Option Nat × D
  itemLoad : ItemKind → D → Nat → Bool → Option InventoryItem × D
  itemSpawn : D → ItemData → Option InventoryItem × D
  blueprintSpawn : D → ItemData → BlueprintData → Option InventoryItem × D
  characterSpawn : D → ItemData → CharacterData → CharacterAppearance → CorpMemberInfo →
    Option InventoryItem × D
  loadContents : D → InventoryItem → Bool → Bool × D
  save : D → InventoryItem → Bool → D

/-- Outcome of an operation that dereferences entity pointers: `fault` when it dereferences a
pointer that denotes no live object (undefined behaviour in the source), otherwise the
returned value and the state reached. -/
inductive Result (D : Type) (α : Type) where
  | fault : Result D α
  | ok (ret : α) (post : State D) : Result D α
deriving DecidableEq, Repr

variable {D : Type}

/-- Appends one event to the log. -/
def State.emit (s : State D) (e : Event) : State D :=
  { s with log := s.log ++ [e] }

/-! ## Loaders: the calls into the backing store -/

/-- The class a loader constructs: `K::Load` returns a `K *`, so for a narrowed class the node
is of class `K`; for the base loader the store decides the class. -/
def TypeKind.tag (k : TypeKind) (n : TypeNode) : TypeNode :=
  match k with
  | .type => n
  | .blueprintType => { n with kind := .blueprintType }
  | .characterType => { n with kind := .characterType }
  | .shipType => { n with kind := .shipType }

/-- The class a loader constructs, for entities. -/
def ItemKind.tag (k : ItemKind) (o : InventoryItem) : InventoryItem :=
  match k with
  | .item => o
  | .blueprint => { o with kind := .blueprint }
  | .character => { o with kind := .character }

/-- Call of `Category::Load(*this, category)`. -/
def Category.Load (B : Store D) (s : State D) (category : Nat) : Option Category × State D :=
  match B.categoryLoad s.db category with
  | (r, db') => (r, ({ s with db := db' }).emit (.categoryLoad category))

/-- Call of `Group::Load(*this, groupID)`. -/
def Group.Load (B : Store D) (s : State D) (groupID : Nat) : Option Group × State D :=
  match B.groupLoad s.db groupID with
  | (r, db') => (r, ({ s with db := db' }).emit (.groupLoad groupID))

/-- Call of `K::Load(*this, typeID)` for the type class `k`. -/
def loadTypeAs (k : TypeKind) (B : Store D) (s : State D) (typeID : Nat) :
    Option TypeNode × State D :=
  match B.typeLoad k s.db typeID with
  | (r, db') => (r.map k.tag, ({ s with db := db' }).emit (.typeLoad k typeID))

/-- Call of `Type::Load(*this, typeID)`. -/
def TypeNode.Load (B : Store D) (s : State D) (typeID : Nat) : Option TypeNode × State D :=
  loadTypeAs .type B s typeID

/-- Call of `BlueprintType::Load(*this, blueprintTypeID)`. -/
def BlueprintType.Load (B : Store D) (s : State D) (blueprintTypeID : Nat) :
    Option TypeNode × State D :=
  loadTypeAs .blueprintType B s blueprintTypeID

/-- Call of `CharacterType::Load(*this, characterTypeID)`. -/
def CharacterType.Load (B : Store D) (s : State D) (characterTypeID : Nat) :
    Option TypeNode × State D :=
  loadTypeAs .characterType B s characterTypeID

/-- Call of `ShipType::Load(*this, shipTypeID)`. -/
def ShipType.Load (B : Store D) (s : State D) (shipTypeID : Nat) : Option TypeNode × State D :=
  loadTypeAs .shipType B s shipTypeID

/-- Places what a loader or spawner returned on the heap: `NULL` stays `NULL`, an object gets
a fresh address. -/
def newObject (k : ItemKind) (r : Option InventoryItem) (s : State D) : Option Ptr × State D :=
  match r with
  | none => (none, s)
  | some o => ((alloc s.heap (k.tag o)).1, { s with heap := (alloc s.heap (k.tag o)).2 })

/-- Call of `K::Load(*this, itemID, recurse)` for the entity class `k`. -/
def loadItemAs (k : ItemKind) (B : Store D) (s : State D) (itemID : Nat) (recurse : Bool) :
    Option Ptr × State D :=
  match B.itemLoad k s.db itemID recurse with
  | (r, db') => newObject k r (({ s with db := db' }).emit (.itemLoad k itemID recurse))

/-- Call of `InventoryItem::Load(*this, itemID, recurse)`. -/
def InventoryItem.Load (B : Store D) (s : State D) (itemID : Nat) (recurse : Bool) :
    Option Ptr × State D :=
  loadItemAs .item B s itemID recurse

/-- Call of `Blueprint::Load(*this, blueprintID, recurse)`. -/
def Blueprint.Load (B : Store D) (s : State D) (blueprintID : Nat) (recurse : Bool) :
    Option Ptr × State D :=
  loadItemAs .blueprint B s blueprintID recurse

/-- Call of `Character::Load(*this, characterID, recurse)`. -/
def Character.Load (B : Store D) (s : State D) (characterID : Nat) (recurse : Bool) :
    Option Ptr × State D :=
  loadItemAs .character B s characterID recurse

/-- Call of `InventoryItem::Spawn(*this, data)`. -/
def InventoryItem.Spawn (B : Store D) (s : State D) (data : ItemData) : Option Ptr × State D :=
  match B.itemSpawn s.db data with
  | (r, db') => newObject .item r (({ s with db := db' }).emit (.itemSpawn .item))

/-- Call of `Blueprint::Spawn(*this, data, bpData)`. -/
def Blueprint.Spawn (B : Store D) (s : State D) (data : ItemData) (bpData : BlueprintData) :
    Option Ptr × State D :=
  match B.blueprintSpawn s.db data bpData with
  | (r, db') => newObject .blueprint r (({ s with db := db' }).emit (.itemSpawn .blueprint))

/-- Call of `Character::Spawn(*this, data, charData, appData, corpData)`. -/
def Character.Spawn (B : Store D) (s : State D) (data : ItemData) (charData : CharacterData)
    (appData : CharacterAppearance) (corpData : CorpMemberInfo) : Option Ptr × State D :=
  match B.characterSpawn s.db data charData appData corpData with
  | (r, db') => newObject .character r (({ s with db := db' }).emit (.itemSpawn .character))

/-! ## Methods of `InventoryItem` the factory calls -/

/-- Modelled from the spec: `IncRef` is declared outside the two source files.  It counts
one more reference on the object and returns the same pointer ("hands out an additional
shared reference counted against the same underlying value"). -/
def IncRef (s : State D) (p : Ptr) : Result D Ptr :=
  match deref s.heap p with
  | none => .fault
  | some o =>
      .ok p (({ s with heap := s.heap.set p { o with refCount := o.refCount + 1 } }).emit
        (.incRef p))

/-- Modelled from the spec: `DecRef` is declared outside the two source files.  It gives up
one reference; the entity is destroyed when its count reaches zero, after which `deref` no
longer finds it. -/
def DecRef (s : State D) (p : Ptr) : Result D Unit :=
  match deref s.heap p with
  | none => .fault
  | some o =>
      .ok () (({ s with heap := s.heap.set p { o with refCount := o.refCount - 1 } }).emit
        (.decRef p))

/-- Modelled from the spec: `LoadContents` is declared outside the two source files.  The
store reports whether the contents could be loaded; on success the entity is flagged as
having its contents loaded.  By section 4.3 nothing else of the cache is touched. -/
def LoadContents (B : Store D) (s : State D) (p : Ptr) (recursive : Bool) : Result D Bool :=
  match deref s.heap p with
  | none => .fault
  | some o =>
      match B.loadContents s.db o recursive with
      | (false, db') => .ok false (({ s with db := db' }).emit (.loadContents p recursive))
      | (true, db') =>
          .ok true (({ s with heap := s.heap.set p { o with contentsLoaded := true },
                              db := db' }).emit (.loadContents p recursive))

/-- Modelled from the spec: `ContentsLoaded` is declared outside the two source files; it
reads the contents-loaded flag. -/
def ContentsLoaded (s : State D) (p : Ptr) : Result D Bool :=
  match deref s.heap p with
  | none => .fault
  | some o => .ok o.contentsLoaded s

/-- Modelled from the spec: `itemID()` is declared outside the two source files; it reads
the item id of the entity. -/
def itemID (s : State D) (p : Ptr) : Option Nat :=
  (deref s.heap p).map (fun o => o.itemID)

/-- Modelled from the spec: `Save` is declared outside the two source files; it is the
`persist(entity, recursive)` operation of the store.  The source ignores its result. -/
def Save (B : Store D) (s : State D) (p : Ptr) (recursive : Bool) : Result D Unit :=
  match deref s.heap p with
  | none => .fault
  | some o => .ok () (({ s with db := B.save s.db o recursive }).emit (.save p recursive))

/-! ## The factory operations -/

/-- Embedding of `ItemFactory::GetCategory` (lines 72-85). -/
def GetCategory (B : Store D) (s : State D) (category : Nat) : Option Category × State D :=
  match IdMap.find s.m_categories category with
  | none =>
      match Category.Load B s category with
      | (none, s1) => (none, s1)
      | (some cat, s1) =>
          -- insert it into our cache
          let res := IdMap.insert s1.m_categories category cat
          (some res.2, { s1 with m_categories := res.1 })
  | some res => (some res, s)

/-- Embedding of `ItemFactory::GetGroup` (lines 87-100). -/
def GetGroup (B : Store D) (s : State D) (groupID : Nat) : Option Group × State D :=
  match IdMap.find s.m_groups groupID with
  | none =>
      match Group.Load B s groupID with
      | (none, s1) => (none, s1)
      | (some group, s1) =>
          -- insert it into cache
          let res := IdMap.insert s1.m_groups groupID group
          (some res.2, { s1 with m_groups := res.1 })
  | some res => (some res, s)

/-- Embedding of `ItemFactory::GetType` (lines 102-115). -/
def GetType (B : Store D) (s : State D) (typeID : Nat) : Option TypeRef × State D :=
  match IdMap.find s.m_types typeID with
  | none =>
      match TypeNode.Load B s typeID with
      | (none, s1) => (none, s1)
      | (some type, s1) =>
          -- insert into cache
          let res := IdMap.insert s1.m_types typeID type
          (some ⟨.type, res.2⟩, { s1 with m_types := res.1 })
  | some res => (some ⟨.type, res⟩, s)

/-- Embedding of `ItemFactory::GetBlueprintType` (lines 117-129); the result is
`static_cast<const BlueprintType *>(res->second)`. -/
def GetBlueprintType (B : Store D) (s : State D) (blueprintTypeID : Nat) :
    Option TypeRef × State D :=
  match IdMap.find s.m_types blueprintTypeID with
  | none =>
      match BlueprintType.Load B s blueprintTypeID with
      | (none, s1) => (none, s1)
      | (some bt, s1) =>
          let res := IdMap.insert s1.m_types blueprintTypeID bt
          (some ⟨.blueprintType, res.2⟩, { s1 with m_types := res.1 })
  | some res => (some ⟨.blueprintType, res⟩, s)

/-- Embedding of `ItemFactory::GetCharacterType` (lines 131-143); the result is
`static_cast<const CharacterType *>(res->second)`. -/
def GetCharacterType (B : Store D) (s : State D) (characterTypeID : Nat) :
    Option TypeRef × State D :=
  match IdMap.find s.m_types characterTypeID with
  | none =>
      match CharacterType.Load B s characterTypeID with
      | (none, s1) => (none, s1)
      | (some ct, s1) =>
          let res := IdMap.insert s1.m_types characterTypeID ct
          (some ⟨.characterType, res.2⟩, { s1 with m_types := res.1 })
  | some res => (some ⟨.characterType, res⟩, s)

/-- Embedding of `ItemFactory::GetCharacterTypeByBloodline` (lines 145-151). -/
def GetCharacterTypeByBloodline (B : Store D) (s : State D) (bloodlineID : Nat) :
    Option TypeRef × State D :=
  -- Unfortunately, we have it indexed by typeID, so we must get it ...
  match B.characterTypeByBloodline s.db bloodlineID with
  | (none, db') => (none, ({ s with db := db' }).emit (.bloodlineQuery bloodlineID))
  | (some characterTypeID, db') =>
      GetCharacterType B (({ s with db := db' }).emit (.bloodlineQuery bloodlineID))
        characterTypeID

/-- Embedding of `ItemFactory::GetShipType` (lines 153-165); the result is
`static_cast<const ShipType *>(res->second)`. -/
def GetShipType (B : Store D) (s : State D) (shipTypeID : Nat) : Option TypeRef × State D :=
  match IdMap.find s.m_types shipTypeID with
  | none =>
      match ShipType.Load B s shipTypeID with
      | (none, s1) => (none, s1)
      | (some st, s1) =>
          let res := IdMap.insert s1.m_types shipTypeID st
          (some ⟨.shipType, res.2⟩, { s1 with m_types := res.1 })
  | some res => (some ⟨.shipType, res⟩, s)

/-- The closing `return res->second->IncRef()` of the entity accessors and spawners, with
the pointer typed as class `k`. -/
def returnRef (k : ItemKind) (s : State D) (p : Ptr) : Result D (Option ItemRef) :=
  match IncRef s p with
  | .fault => .fault
  | .ok q s1 => .ok (some ⟨k, q⟩) s1

/-- Embedding of `ItemFactory::GetItem` (lines 167-186). -/
def GetItem (B : Store D) (s : State D) (itemID : Nat) (recurse : Bool) :
    Result D (Option ItemRef) :=
  match IdMap.find s.m_items itemID with
  | none =>
      -- load the item
      match InventoryItem.Load B s itemID recurse with
      | (none, s1) => .ok none s1
      | (some i, s1) =>
          -- we keep the original ref.
          let res := IdMap.insert s1.m_items itemID i
          -- we return new ref to the user.
          returnRef .item { s1 with m_items := res.1 } res.2
  | some res =>
      if recurse then
        -- ensure its recursively loaded
        match LoadContents B s res true with
        | .fault => .fault
        | .ok false s1 => .ok none s1
        | .ok true s1 => returnRef .item s1 res
      else returnRef .item s res

/-- Embedding of `ItemFactory::GetBlueprint` (lines 188-203); the result is
`static_cast<Blueprint *>(res->second->IncRef())`. -/
def GetBlueprint (B : Store D) (s : State D) (blueprintID : Nat) (recurse : Bool) :
    Result D (Option ItemRef) :=
  match IdMap.find s.m_items blueprintID with
  | none =>
      match Blueprint.Load B s blueprintID recurse with
      | (none, s1) => .ok none s1
      | (some bi, s1) =>
          let res := IdMap.insert s1.m_items blueprintID bi
          returnRef .blueprint { s1 with m_items := res.1 } res.2
  | some res =>
      if recurse then
        match LoadContents B s res true with
        | .fault => .fault
        | .ok false s1 => .ok none s1
        | .ok true s1 => returnRef .blueprint s1 res
      else returnRef .blueprint s res

/-- Embedding of `ItemFactory::GetCharacter` (lines 205-220); the result is
`static_cast<Character *>(res->second->IncRef())`. -/
def GetCharacter (B : Store D) (s : State D) (characterID : Nat) (recurse : Bool) :
    Result D (Option ItemRef) :=
  match IdMap.find s.m_items characterID with
  | none =>
      match Character.Load B s characterID recurse with
      | (none, s1) => .ok none s1
      | (some c, s1) =>
          let res := IdMap.insert s1.m_items characterID c
          returnRef .character { s1 with m_items := res.1 } res.2
  | some res =>
      if recurse then
        match LoadContents B s res true with
        | .fault => .fault
        | .ok false s1 => .ok none s1
        | .ok true s1 => returnRef .character s1 res
      else returnRef .character s res

/-- The tail shared by the three spawners once the object exists:
`m_items[i->itemID()] = i; return i->IncRef();`. -/
def storeSpawned (k : ItemKind) (s : State D) (i : Ptr) : Result D (Option ItemRef) :=
  match itemID s i with
  | none => .fault
  | some id =>
      -- spawn successfull; store the ref
      -- return additional ref
      returnRef k { s with m_items := IdMap.assign s.m_items id i } i

/-- Embedding of `ItemFactory::SpawnItem` (lines 222-231). -/
def SpawnItem (B : Store D) (s : State D) (data : ItemData) : Result D (Option ItemRef) :=
  match InventoryItem.Spawn B s data with
  | (none, s1) => .ok none s1
  | (some i, s1) => storeSpawned .item s1 i

/-- Embedding of `ItemFactory::SpawnBlueprint` (lines 233-240). -/
def SpawnBlueprint (B : Store D) (s : State D) (data : ItemData) (bpData : BlueprintData) :
    Result D (Option ItemRef) :=
  match Blueprint.Spawn B s data bpData with
  | (none, s1) => .ok none s1
  | (some bi, s1) => storeSpawned .blueprint s1 bi

/-- Embedding of `ItemFactory::SpawnCharacter` (lines 242-249). -/
def SpawnCharacter (B : Store D) (s : State D) (data : ItemData) (charData : CharacterData)
    (appData : CharacterAppearance) (corpData : CorpMemberInfo) : Result D (Option ItemRef) :=
  match Character.Spawn B s data charData appData corpData with
  | (none, s1) => .ok none s1
  | (some c, s1) => storeSpawned .character s1 c

/-- Embedding of `ItemFactory::_GetIfContentsLoaded` (lines 251-257). -/
def _GetIfContentsLoaded (s : State D) (itemID : Nat) : Result D (Option ItemRef) :=
  match IdMap.find s.m_items itemID with
  | some res =>
      match ContentsLoaded s res with
      | .fault => .fault
      | .ok true s1 => returnRef .item s1 res
      | .ok false s1 => .ok none s1
  | none => .ok none s

/-- Embedding of `ItemFactory::_DeleteItem` (lines 259-268). -/
def _DeleteItem (s : State D) (itemID : Nat) : Result D Unit :=
  match IdMap.find s.m_items itemID with
  | none =>
      -- codelog(SERVICE__ERROR, "Item ID %d not found when requesting deletion!", itemID)
      .ok () (s.emit (.codelogError itemID))
  | some res =>
      match DecRef s res with
      | .fault => .fault
      | .ok _ s1 => .ok () { s1 with m_items := IdMap.erase s1.m_items itemID }

/-- One round of the items loop of the destructor: `Save(false)` then `DecRef()`. -/
def saveAndRelease (B : Store D) (s : State D) (p : Ptr) : Result D Unit :=
  match Save B s p false with  -- do not recurse
  | .fault => .fault
  | .ok _ s1 => DecRef s1 p

/-- The items loop of the destructor, over the entries from `cur` to `end`. -/
def releaseItems (B : Store D) : State D → List (Nat × Ptr) → Result D Unit
  | s, [] => .ok () s
  | s, (_, p) :: rest =>
      match saveAndRelease B s p with
      | .fault => .fault
      | .ok _ s1 => releaseItems B s1 rest

/-- Embedding of `ItemFactory::~ItemFactory` (lines 34-70): items are saved and released,
then every type, group and category node is deleted.  The maps, being members, end with
the factory. -/
def destructor (B : Store D) (s : State D) : Result D Unit :=
  -- items
  match releaseItems B s s.m_items with
  | .fault => .fault
  | .ok _ s1 =>
      .ok ()
        { s1 with
          m_items := []
          m_types := []
          m_groups := []
          m_categories := []
          log := s1.log
            -- types
            ++ s1.m_types.map (fun e => Event.deleteType e.2)
            -- groups
            ++ s1.m_groups.map (fun e => Event.deleteGroup e.2)
            -- categories
            ++ s1.m_categories.map (fun e => Event.deleteCategory e.2) }

/-! ## The accessor families -/

/-- The six taxonomy-by-type accessors differ in the loader called and the class the result
is typed as; `typeGet k` is the accessor for class `k`. -/
def typeGet : TypeKind → Store D → State D → Nat → Option TypeRef × State D
  | .type => GetType
  | .blueprintType => GetBlueprintType
  | .characterType => GetCharacterType
  | .shipType => GetShipType

/-- The three entity accessors, by the class they return. -/
def entityGet : ItemKind → Store D → State D → Nat → Bool → Result D (Option ItemRef)
  | .item => GetItem
  | .blueprint => GetBlueprint
  | .character => GetCharacter

/-- Arguments of a spawn call: one constructor per spawner. -/
inductive SpawnArgs where
  | item (data : ItemData)
  | blueprint (data : ItemData) (bpData : BlueprintData)
  | character (data : ItemData) (charData : CharacterData) (appData : CharacterAppearance)
      (corpData : CorpMemberInfo)
deriving DecidableEq, Repr

/-- The class a spawn call returns. -/
def SpawnArgs.kind : SpawnArgs → ItemKind
  | .item _ => .item
  | .blueprint _ _ => .blueprint
  | .character _ _ _ _ => .character

/-- The three spawners, by their arguments. -/
def entitySpawn (B : Store D) (s : State D) : SpawnArgs → Result D (Option ItemRef)
  | .item data => SpawnItem B s data
  | .blueprint data bpData => SpawnBlueprint B s data bpData
  | .character data charData appData corpData =>
      SpawnCharacter B s data charData appData corpData

/-- What the store answers to a spawn call. -/
def Store.spawn (B : Store D) (db : D) : SpawnArgs → Option InventoryItem × D
  | .item data => B.itemSpawn db data
  | .blueprint data bpData => B.blueprintSpawn db data bpData
  | .character data charData appData corpData =>
      B.characterSpawn db data charData appData corpData

/-! ## What teardown is expected to log -/

/-- What the items loop of the destructor is expected to log for the entries `l`: for each
entry in key order a non-recursive save of the entity, then its release. -/
def releaseLog : List (Nat × Ptr) → List Event
  | [] => []
  | (_, p) :: rest => .save p false :: .decRef p :: releaseLog rest

/-- What the three delete loops of the destructor log: one delete per type, then per group,
then per category. -/
def deleteLog (s : State D) : List Event :=
  s.m_types.map (fun e => Event.deleteType e.2)
    ++ s.m_groups.map (fun e => Event.deleteGroup e.2)
    ++ s.m_categories.map (fun e => Event.deleteCategory e.2)

/-! ## Sequences of operations -/

/-- The factory right after construction: empty maps, empty heap, nothing logged. -/
def State.empty (db : D) : State D :=
  { m_categories := [], m_groups := [], m_types := [], m_items := [], heap := [], db := db,
    log := [] }

/-- The operations of the factory other than teardown. -/
inductive Op where
  | getCategory (category : Nat)
  | getGroup (groupID : Nat)
  | getType (k : TypeKind) (typeID : Nat)
  | getCharacterTypeByBloodline (bloodlineID : Nat)
  | getEntity (k : ItemKind) (itemID : Nat) (recurse : Bool)
  | spawn (args : SpawnArgs)
  | getIfContentsLoaded (itemID : Nat)
  | deleteItem (itemID : Nat)
deriving DecidableEq, Repr

/-- The operations on the entity cache. -/
def Op.isEntityOp : Op → Bool
  | .getEntity _ _ _ => true
  | .spawn _ => true
  | .getIfContentsLoaded _ => true
  | .deleteItem _ => true
  | _ => false

/-- One call of an operation: the entity reference handed to the caller, if any, and the
state reached.  The node a taxonomy accessor returns is not kept. -/
def Op.run (B : Store D) (s : State D) : Op → Result D (Option ItemRef)
  | .getCategory category => .ok none (GetCategory B s category).2
  | .getGroup groupID => .ok none (GetGroup B s groupID).2
  | .getType k typeID => .ok none (typeGet k B s typeID).2
  | .getCharacterTypeByBloodline bloodlineID =>
      .ok none (GetCharacterTypeByBloodline B s bloodlineID).2
  | .getEntity k itemID recurse => entityGet k B s itemID recurse
  | .spawn args => entitySpawn B s args
  | .getIfContentsLoaded itemID => _GetIfContentsLoaded s itemID
  | .deleteItem itemID =>
      match _DeleteItem s itemID with
      | .fault => .fault
      | .ok _ s1 => .ok none s1

/-- A sequence of calls, one after the other; nothing is reached once a call faults. -/
def runOps (B : Store D) : State D → List Op → Option (State D)
  | s, [] => some s
  | s, op :: rest =>
      match op.run B s with
      | .fault => none
      | .ok _ s1 => runOps B s1 rest

/-- The factory together with its callers: `held` lists the entity references that were
handed to callers and not released yet, one occurrence per reference. -/
structure World (D : Type) where
  st : State D
  held : List Ptr
deriving DecidableEq, Repr

/-- What can happen next: a call of a factory operation, or a caller releasing a reference. -/
inductive Call where
  | op (o : Op)
  | release (p : Ptr)
deriving DecidableEq, Repr

/-- One step.  A reference handed out by an operation is added to `held`; a caller may release
only a reference it holds, and does so with `DecRef`. -/
def World.step (B : Store D) (w : World D) : Call → Option (World D)
  | .op o =>
      match o.run B w.st with
      | .fault => none
      | .ok none s1 => some ⟨s1, w.held⟩
      | .ok (some r) s1 => some ⟨s1, r.ptr :: w.held⟩
  | .release p =>
      if p ∈ w.held then
        match DecRef w.st p with
        | .fault => none
        | .ok _ s1 => some ⟨s1, w.held.erase p⟩
      else none

/-- A sequence of steps. -/
def World.run (B : Store D) : World D → List Call → Option (World D)
  | w, [] => some w
  | w, c :: rest =>
      match w.step B c with
      | none => none
      | some w1 => World.run B w1 rest

/-- The factory right after construction, with no reference handed out. -/
def World.initial (db : D) : World D := ⟨State.empty db, []⟩

/-! ## Assumptions on the store, and invariants -/

/-- Assumption on the store: every entity that `Load` or `Spawn` returns comes with reference
count 1. -/
def Store.Fresh (B : Store D) : Prop :=
  (∀ k db id recurse o db', B.itemLoad k db id recurse = (some o, db') → o.refCount = 1) ∧
  (∀ db args o db', B.spawn db args = (some o, db') → o.refCount = 1)

/-- Assumption on the store: an entity that `Load(id)` returns has item id `id`. -/
def Store.LoadsRequested (B : Store D) : Prop :=
  ∀ k db id recurse o db', B.itemLoad k db id recurse = (some o, db') → o.itemID = id

/-- The key of every entry of `m_items` is the item id of the entity stored under it. -/
def KeysMatch (s : State D) : Prop :=
  ∀ id p, IdMap.find s.m_items id = some p → ∃ o, s.heap[p]? = some o ∧ o.itemID = id

/-- The canonical-reference invariant: every cached entity has one reference more than its
callers hold; different ids are cached under different entities; and no entity has fewer
references than its callers hold. -/
def Canonical (w : World D) : Prop :=
  (∀ id p, IdMap.find w.st.m_items id = some p →
    ∃ o, w.st.heap[p]? = some o ∧ o.refCount = 1 + w.held.count p) ∧
  (∀ id1 id2 p, IdMap.find w.st.m_items id1 = some p →
    IdMap.find w.st.m_items id2 = some p → id1 = id2) ∧
  (∀ p, p ∈ w.held → ∃ o, w.st.heap[p]? = some o ∧ w.held.count p ≤ o.refCount)

/-! ## A small store for concrete runs -/

/-- A store over a call counter.  Categories below 10, groups below 50 and types below 100
exist; bloodline `b` below 20 belongs to character type `b + 1`; items below 1000 exist;
spawning fails for data code 0 and otherwise creates the entity with item id `data.code`. -/
def sampleStore : Store Nat where
  categoryLoad db id := (if id < 10 then some ⟨id, 100 + id⟩ else none, db + 1)
  groupLoad db id := (if id < 50 then some ⟨id, 200 + id⟩ else none, db + 1)
  typeLoad _ db id := (if id < 100 then some ⟨.type, id, 300 + id⟩ else none, db + 1)
  characterTypeByBloodline db b := (if b < 20 then some (b + 1) else none, db + 1)
  itemLoad _ db id recurse :=
    (if id < 1000 then some ⟨.item, id, 1, recurse, 400 + id⟩ else none, db + 1)
  itemSpawn db data :=
    (if data.code = 0 then none else some ⟨.item, data.code, 1, false, 0⟩, db + 1)
  blueprintSpawn db data _ :=
    (if data.code = 0 then none else some ⟨.item, data.code, 1, false, 0⟩, db + 1)
  characterSpawn db data _ _ _ :=
    (if data.code = 0 then none else some ⟨.item, data.code, 1, false, 0⟩, db + 1)
  loadContents db o _ := (decide (o.data % 2 = 0), db + 1)
  save db _ _ := db + 1

/-- The sample store, except that loading the contents of an entity always fails. -/
def noContentsStore : Store Nat :=
  { sampleStore with loadContents := fun db _ _ => (false, db + 1) }

/-- State reached from the empty factory by `GetBlueprint(4, false)` on the sample store. -/
def afterGetBlueprint4 : State Nat :=
  { m_categories := [], m_groups := [], m_types := [], m_items := [(4, 0)],
    heap := [⟨.blueprint, 4, 2, false, 404⟩], db := 1,
    log := [.itemLoad .blueprint 4 false, .incRef 0] }

/-- State reached from `afterGetBlueprint4` by `GetItem(4, true)`. -/
def afterGetItem4 : State Nat :=
  { m_categories := [], m_groups := [], m_types := [], m_items := [(4, 0)],
    heap := [⟨.blueprint, 4, 3, true, 404⟩], db := 2,
    log := [.itemLoad .blueprint 4 false, .incRef 0, .loadContents 0 true, .incRef 0] }

/-- State reached from the empty factory by `GetItem(5, false)` on the sample store. -/
def afterGetItem5 : State Nat :=
  { m_categories := [], m_groups := [], m_types := [], m_items := [(5, 0)],
    heap := [⟨.item, 5, 2, false, 405⟩], db := 1,
    log := [.itemLoad .item 5 false, .incRef 0] }

/-- State reached from `afterGetItem5` by `SpawnItem` with data code 5, for which the sample
store creates an entity whose item id is 5 again. -/
def afterSpawn5 : State Nat :=
  { m_categories := [], m_groups := [], m_types := [], m_items := [(5, 1)],
    heap := [⟨.item, 5, 2, false, 405⟩, ⟨.item, 5, 2, false, 0⟩], db := 2,
    log := [.itemLoad .item 5 false, .incRef 0, .itemSpawn .item, .incRef 1] }

/-- State reached from the empty factory by `SpawnItem` with data code 7. -/
def afterSpawn7 : State Nat :=
  { m_categories := [], m_groups := [], m_types := [], m_items := [(7, 0)],
    heap := [⟨.item, 7, 2, false, 0⟩], db := 1,
    log := [.itemSpawn .item, .incRef 0] }

/-- State reached from `afterGetItem5` by `_DeleteItem(5)`. -/
def afterDelete5 : State Nat :=
  { m_categories := [], m_groups := [], m_types := [], m_items := [],
    heap := [⟨.item, 5, 1, false, 405⟩], db := 1,
    log := [.itemLoad .item 5 false, .incRef 0, .decRef 0] }

/-- A state with two cached entities and one node in each taxonomy map. -/
def twoItems : State Nat :=
  { m_categories := [(1, ⟨1, 101⟩)], m_groups := [(2, ⟨2, 202⟩)],
    m_types := [(3, ⟨.shipType, 3, 303⟩)], m_items := [(4, 1), (9, 0)],
    heap := [⟨.item, 9, 1, false, 409⟩, ⟨.blueprint, 4, 3, true, 404⟩], db := 6,
    log := [] }

/-- A run that mixes taxonomy accessors, entity accessors, a spawn and deletes, with calls
that succeed and calls that fail. -/
def mixedRun : List Op :=
  [.getType .characterType 3, .getEntity .item 9 true, .deleteItem 4, .getCategory 30,
   .getGroup 7, .spawn (.item ⟨7⟩), .deleteItem 77, .getCharacterTypeByBloodline 4]

/-- State reached from `twoItems` by `mixedRun` on the sample store. -/
def afterMixedRun : State Nat :=
  { m_categories := [(1, ⟨1, 101⟩)], m_groups := [(2, ⟨2, 202⟩), (7, ⟨7, 207⟩)],
    m_types := [(3, ⟨.shipType, 3, 303⟩), (5, ⟨.characterType, 5, 305⟩)],
    m_items := [(7, 2), (9, 0)],
    heap := [⟨.item, 9, 1, false, 409⟩, ⟨.blueprint, 4, 2, true, 404⟩, ⟨.item, 7, 2, false, 0⟩],
    db := 12,
    log := [.loadContents 0 true, .decRef 1, .categoryLoad 30, .groupLoad 7, .itemSpawn .item,
            .incRef 2, .codelogError 77, .bloodlineQuery 4, .typeLoad .characterType 5] }

/-- A run on the entity cache: loads, spawns (the last one of an id that is cached), a
delete, a probe and a failing load. -/
def entityRun : List Op :=
  [.getEntity .blueprint 4 false, .spawn (.item ⟨7⟩), .getEntity .item 4 true, .deleteItem 4,
   .spawn (.character ⟨4⟩ ⟨0⟩ ⟨0⟩ ⟨0⟩), .getEntity .item 5 false, .spawn (.item ⟨5⟩),
   .getIfContentsLoaded 7, .getEntity .character 2000 false]

/-- State reached from the empty factory by `entityRun` on the sample store. -/
def afterEntityRun : State Nat :=
  { m_categories := [], m_groups := [], m_types := [], m_items := [(4, 2), (5, 4), (7, 1)],
    heap := [⟨.blueprint, 4, 2, true, 404⟩, ⟨.item, 7, 2, false, 0⟩,
             ⟨.character, 4, 2, false, 0⟩, ⟨.item, 5, 2, false, 405⟩, ⟨.item, 5, 2, false, 0⟩],
    db := 7,
    log := [.itemLoad .blueprint 4 false, .incRef 0, .itemSpawn .item, .incRef 1,
            .loadContents 0 true, .incRef 0, .decRef 0, .itemSpawn .character, .incRef 2,
            .itemLoad .item 5 false, .incRef 3, .itemSpawn .item, .incRef 4,
            .itemLoad .character 2000 false] }

/-- A run of the factory with its callers: loads, hits, a spawn and its delete, a spawn of an
id that is cached, a probe, releases of references held, and a delete of an unknown id. -/
def callerRun : List Call :=
  [.op (.getEntity .blueprint 4 false), .op (.getEntity .item 4 true), .release 0,
   .op (.spawn (.item ⟨7⟩)), .op (.deleteItem 7), .release 1, .op (.getEntity .item 5 false),
   .op (.spawn (.item ⟨5⟩)), .op (.getIfContentsLoaded 4), .release 0, .op (.deleteItem 9),
   .op (.getType .shipType 3)]

/-- World reached from the empty factory by `callerRun` on the sample store. -/
def afterCallerRun : World Nat :=
  { st :=
      { m_categories := [], m_groups := [], m_types := [(3, ⟨.shipType, 3, 303⟩)],
        m_items := [(4, 0), (5, 3)],
        heap := [⟨.blueprint, 4, 2, true, 404⟩, ⟨.item, 7, 0, false, 0⟩,
                 ⟨.item, 5, 2, false, 405⟩, ⟨.item, 5, 2, false, 0⟩],
        db := 6,
        log := [.itemLoad .blueprint 4 false, .incRef 0, .loadContents 0 true, .incRef 0,
                .decRef 0, .itemSpawn .item, .incRef 1, .decRef 1, .decRef 1,
                .itemLoad .item 5 false, .incRef 2, .itemSpawn .item, .incRef 3, .incRef 0,
                .decRef 0, .codelogError 9, .typeLoad .shipType 3] },
    held := [3, 2, 0] }

/-! ## Facts about the keyed maps -/

namespace IdMap

theorem find_place_self {α : Type} (k : Nat) (v : α) (m : IdMap α) (h : find m k = none) :
    find (place k v m) k = some v := by
  induction m with
  | nil => simp [place, find]
  | cons e rest ih =>
    obtain ⟨k', v'⟩ := e
    by_cases hk : k' = k
    · simp [find, hk] at h
    · simp only [find, hk, if_false] at h
      by_cases hlt : k < k'
      · simp [place, hlt, find]
      · simp [place, hlt, find, hk, ih h]

theorem find_place_other {α : Type} (k j : Nat) (v : α) (m : IdMap α) (hj : j ≠ k) :
    find (place k v m) j = find m j := by
  induction m with
  | nil => simp [place, find, Ne.symm hj]
  | cons e rest ih =>
    obtain ⟨k', v'⟩ := e
    by_cases hlt : k < k'
    · simp [place, hlt, find, Ne.symm hj]
    · simp [place, hlt, find, ih]

theorem erase_cons {α : Type} (k' : Nat) (v' : α) (rest : IdMap α) (k : Nat) :
    erase ((k', v') :: rest) k = if k' = k then erase rest k else (k', v') :: erase rest k := by
  by_cases hk : k' = k <;> simp [erase, List.filter_cons, hk]

theorem find_cons {α : Type} (k' : Nat) (v' : α) (rest : IdMap α) (k : Nat) :
    find ((k', v') :: rest) k = if k' = k then some v' else find rest k := rfl

theorem find_erase_self {α : Type} (m : IdMap α) (k : Nat) : find (erase m k) k = none := by
  induction m with
  | nil => rfl
  | cons e rest ih =>
    obtain ⟨k', v'⟩ := e
    rw [erase_cons]
    by_cases hk : k' = k
    · rw [if_pos hk]; exact ih
    · rw [if_neg hk, find_cons, if_neg hk]; exact ih

theorem find_erase_other {α : Type} (m : IdMap α) (k j : Nat) (hj : j ≠ k) :
    find (erase m k) j = find m j := by
  induction m with
  | nil => rfl
  | cons e rest ih =>
    obtain ⟨k', v'⟩ := e
    rw [erase_cons, find_cons]
    by_cases hk : k' = k
    · have hkj : ¬ k' = j := by rw [hk]; exact Ne.symm hj
      rw [if_pos hk, if_neg hkj]; exact ih
    · rw [if_neg hk, find_cons, ih]

theorem find_map_assign_self {α : Type} (m : IdMap α) (k : Nat) (v old : α)
    (h : find m k = some old) :
    find (m.map (fun e => (e.1, if e.1 = k then v else e.2))) k = some v := by
  induction m with
  | nil => simp [find] at h
  | cons e rest ih =>
    obtain ⟨k', v'⟩ := e
    rw [List.map_cons, find_cons]
    by_cases hk : k' = k
    · simp [hk]
    · rw [find_cons, if_neg hk] at h
      simpa [hk] using ih h

theorem find_map_assign_other {α : Type} (m : IdMap α) (k j : Nat) (v : α) (hj : j ≠ k) :
    find (m.map (fun e => (e.1, if e.1 = k then v else e.2))) j = find m j := by
  induction m with
  | nil => rfl
  | cons e rest ih =>
    obtain ⟨k', v'⟩ := e
    rw [List.map_cons, find_cons, find_cons, ih]
    by_cases hkj : k' = j
    · have hk : ¬ k' = k := by rw [hkj]; exact hj
      simp [hkj, hj]
    · simp [hkj]

theorem find_assign_self {α : Type} (m : IdMap α) (k : Nat) (v : α) :
    find (assign m k v) k = some v := by
  unfold assign
  cases h : find m k with
  | none => simpa using find_place_self k v m h
  | some old => simpa using find_map_assign_self m k v old h

theorem find_assign_other {α : Type} (m : IdMap α) (k j : Nat) (v : α) (hj : j ≠ k) :
    find (assign m k v) j = find m j := by
  unfold assign
  cases h : find m k with
  | none => simpa using find_place_other k j v m hj
  | some old => simpa using find_map_assign_other m k j v hj

theorem insert_of_absent {α : Type} (m : IdMap α) (k : Nat) (v : α) (h : find m k = none) :
    insert m k v = (place k v m, v) := by
  simp [insert, h]

theorem insert_of_present {α : Type} (m : IdMap α) (k : Nat) (v old : α)
    (h : find m k = some old) : insert m k v = (m, old) := by
  simp [insert, h]

end IdMap

/-! ## Facts about the heap -/

theorem deref_some {h : Heap} {p : Ptr} {o : InventoryItem} (hd : deref h p = some o) :
    h[p]? = some o ∧ o.refCount ≠ 0 := by
  unfold deref at hd
  cases hc : h[p]? with
  | none => simp [hc] at hd
  | some c =>
    simp only [hc] at hd
    by_cases hz : c.refCount = 0
    · simp [hz] at hd
    · simp only [hz, if_false, Option.some.injEq] at hd
      subst hd
      exact ⟨rfl, hz⟩

theorem deref_set_self {h : Heap} {p : Ptr} {o t : InventoryItem} (hd : deref h p = some o)
    (ht : t.refCount ≠ 0) : deref (h.set p t) p = some t := by
  have hp : p < h.length := by
    have := (deref_some hd).1
    exact (List.getElem?_eq_some.1 this).1
  simp [deref, List.getElem?_set_self, hp, ht]

theorem deref_set_other {h : Heap} {p q : Ptr} (t : InventoryItem) (hq : q ≠ p) :
    deref (h.set p t) q = deref h q := by
  simp [deref, List.getElem?_set_ne (Ne.symm hq)]

theorem deref_alloc_old {h : Heap} {q : Ptr} {o : InventoryItem} (t : InventoryItem)
    (hd : deref h q = some o) : deref (alloc h t).2 q = some o := by
  have hq := (deref_some hd).1
  have hlt : q < h.length := (List.getElem?_eq_some.1 hq).1
  have : (h ++ [t])[q]? = h[q]? := List.getElem?_append_left hlt
  simp only [deref, alloc, this]
  simpa [deref] using hd

theorem deref_alloc_new (h : Heap) (t : InventoryItem) :
    deref (alloc h t).2 (alloc h t).1 = if t.refCount = 0 then none else some t := by
  simp [deref, alloc]

/-! ## Facts about the entity methods -/

theorem IncRef_live (s : State D) (p : Ptr) (o : InventoryItem) (hd : deref s.heap p = some o) :
    IncRef s p = .ok p
      { s with heap := s.heap.set p { o with refCount := o.refCount + 1 },
               log := s.log ++ [.incRef p] } := by
  simp [IncRef, hd, State.emit]

theorem IncRef_dead (s : State D) (p : Ptr) (hd : deref s.heap p = none) :
    IncRef s p = .fault := by
  simp [IncRef, hd]

theorem DecRef_live (s : State D) (p : Ptr) (o : InventoryItem) (hd : deref s.heap p = some o) :
    DecRef s p = .ok ()
      { s with heap := s.heap.set p { o with refCount := o.refCount - 1 },
               log := s.log ++ [.decRef p] } := by
  simp [DecRef, hd, State.emit]

theorem returnRef_live (k : ItemKind) (s : State D) (p : Ptr) (o : InventoryItem)
    (hd : deref s.heap p = some o) :
    returnRef k s p = .ok (some ⟨k, p⟩)
      { s with heap := s.heap.set p { o with refCount := o.refCount + 1 },
               log := s.log ++ [.incRef p] } := by
  simp [returnRef, IncRef_live s p o hd]

theorem returnRef_dead (k : ItemKind) (s : State D) (p : Ptr) (hd : deref s.heap p = none) :
    returnRef k s p = .fault := by
  simp [returnRef, IncRef_dead s p hd]

/-- A reference handed out by `returnRef` is the pointer passed in, and the object it denotes
was live before the call. -/
theorem returnRef_ok {k : ItemKind} {s s1 : State D} {p : Ptr} {a : Option ItemRef}
    (h : returnRef k s p = .ok a s1) :
    ∃ o, deref s.heap p = some o ∧ a = some ⟨k, p⟩ ∧
      s1 = { s with heap := s.heap.set p { o with refCount := o.refCount + 1 },
                    log := s.log ++ [.incRef p] } := by
  cases hd : deref s.heap p with
  | none => rw [returnRef_dead k s p hd] at h; cases h
  | some o =>
    rw [returnRef_live k s p o hd] at h
    injection h with h1 h2
    exact ⟨o, rfl, h1.symm, h2.symm⟩

/-- The two entity-get paths, for all three accessors at once: on a miss the loader of the
requested class is called; on a hit the contents are loaded when `recurse` is set. -/
theorem entityGet_miss (k : ItemKind) (B : Store D) (s : State D) (id : Nat) (recurse : Bool)
    (h : IdMap.find s.m_items id = none) :
    entityGet k B s id recurse =
      match loadItemAs k B s id recurse with
      | (none, s1) => .ok none s1
      | (some i, s1) =>
          returnRef k { s1 with m_items := (IdMap.insert s1.m_items id i).1 }
            (IdMap.insert s1.m_items id i).2 := by
  cases k <;>
    simp [entityGet, GetItem, GetBlueprint, GetCharacter, h, InventoryItem.Load, Blueprint.Load,
      Character.Load]

theorem entityGet_hit (k : ItemKind) (B : Store D) (s : State D) (id : Nat) (recurse : Bool)
    (p : Ptr) (h : IdMap.find s.m_items id = some p) :
    entityGet k B s id recurse =
      if recurse then
        match LoadContents B s p true with
        | .fault => .fault
        | .ok false s1 => .ok none s1
        | .ok true s1 => returnRef k s1 p
      else returnRef k s p := by
  cases k <;> simp [entityGet, GetItem, GetBlueprint, GetCharacter, h]

/-- The loader call, spelled out: the store is consulted once, the call is logged, and a
returned object is put in the fresh heap cell `s.heap.length`. -/
theorem loadItemAs_none (k : ItemKind) (B : Store D) (s : State D) (id : Nat) (recurse : Bool)
    (db' : D) (h : B.itemLoad k s.db id recurse = (none, db')) :
    loadItemAs k B s id recurse =
      (none, { s with db := db', log := s.log ++ [.itemLoad k id recurse] }) := by
  simp [loadItemAs, h, newObject, State.emit]

theorem loadItemAs_some (k : ItemKind) (B : Store D) (s : State D) (id : Nat) (recurse : Bool)
    (o : InventoryItem) (db' : D) (h : B.itemLoad k s.db id recurse = (some o, db')) :
    loadItemAs k B s id recurse =
      (some s.heap.length,
        { s with heap := s.heap ++ [k.tag o], db := db',
                 log := s.log ++ [.itemLoad k id recurse] }) := by
  simp [loadItemAs, h, newObject, State.emit, alloc]

theorem loadItemAs_shape (k : ItemKind) (B : Store D) (s : State D) (id : Nat) (recurse : Bool) :
    (∃ db', loadItemAs k B s id recurse =
        (none, { s with db := db', log := s.log ++ [.itemLoad k id recurse] })) ∨
    (∃ o db', loadItemAs k B s id recurse =
        (some s.heap.length,
          { s with heap := s.heap ++ [k.tag o], db := db',
                   log := s.log ++ [.itemLoad k id recurse] })) := by
  rcases h : B.itemLoad k s.db id recurse with ⟨r, db'⟩
  cases r with
  | none => exact Or.inl ⟨db', loadItemAs_none k B s id recurse db' h⟩
  | some o => exact Or.inr ⟨o, db', loadItemAs_some k B s id recurse o db' h⟩

theorem LoadContents_shape (B : Store D) (s : State D) (p : Ptr) (recursive : Bool) :
    (deref s.heap p = none ∧ LoadContents B s p recursive = .fault) ∨
    (∃ o db', deref s.heap p = some o ∧ LoadContents B s p recursive =
        .ok false { s with db := db', log := s.log ++ [.loadContents p recursive] }) ∨
    (∃ o db', deref s.heap p = some o ∧ LoadContents B s p recursive =
        .ok true { s with heap := s.heap.set p { o with contentsLoaded := true }, db := db',
                          log := s.log ++ [.loadContents p recursive] }) := by
  cases hd : deref s.heap p with
  | none => exact Or.inl ⟨rfl, by simp [LoadContents, hd]⟩
  | some o =>
    rcases h : B.loadContents s.db o recursive with ⟨r, db'⟩
    cases r with
    | false => exact Or.inr (Or.inl ⟨o, db', rfl, by simp [LoadContents, hd, h, State.emit]⟩)
    | true => exact Or.inr (Or.inr ⟨o, db', rfl, by simp [LoadContents, hd, h, State.emit]⟩)

/-! ## Entity accessors -/

/-- After a successful entity get, the id is cached under the pointer returned and that
pointer denotes a live object. -/
theorem entityGet_ok_some {k : ItemKind} {B : Store D} {s s1 : State D} {id : Nat}
    {recurse : Bool} {a : ItemRef} (h : entityGet k B s id recurse = .ok (some a) s1) :
    a.presentedAs = k ∧ IdMap.find s1.m_items id = some a.ptr ∧
      ∃ o, deref s1.heap a.ptr = some o := by
  cases hf : IdMap.find s.m_items id with
  | none =>
    rw [entityGet_miss k B s id recurse hf] at h
    rcases loadItemAs_shape k B s id recurse with ⟨db', hl⟩ | ⟨o, db', hl⟩
    · rw [hl] at h; cases h
    · rw [hl] at h
      simp only [IdMap.insert_of_absent _ _ _ hf] at h
      obtain ⟨t, ht, ha, hs⟩ := returnRef_ok h
      cases ha
      subst hs
      refine ⟨rfl, IdMap.find_place_self _ _ _ hf, _, deref_set_self ht (by simp)⟩
  | some p =>
    rw [entityGet_hit k B s id recurse p hf] at h
    cases recurse with
    | false =>
      simp only [Bool.false_eq_true, if_false] at h
      obtain ⟨t, ht, ha, hs⟩ := returnRef_ok h
      cases ha
      subst hs
      exact ⟨rfl, hf, _, deref_set_self ht (by simp)⟩
    | true =>
      simp only [if_true] at h
      rcases LoadContents_shape B s p true with ⟨_, hl⟩ | ⟨o, db', _, hl⟩ | ⟨o, db', _, hl⟩
      · rw [hl] at h; cases h
      · rw [hl] at h; cases h
      · rw [hl] at h
        obtain ⟨t, ht, ha, hs⟩ := returnRef_ok h
        cases ha
        subst hs
        exact ⟨rfl, hf, _, deref_set_self ht (by simp)⟩

/-- C1 (cache identity for entities): if an entity accessor (GetItem, GetBlueprint or
GetCharacter, any recurse flag) returns a reference for id `i` and the next call, again one of
the three accessors with any recurse flag, also returns a reference for `i`, then the second
reference is the same pointer as the first, the id-to-entity map is unchanged by the second
call, the object behind the pointer is the object seen after the first call with its class,
item id and data untouched (one more reference counted, contents flagged as loaded when
recurse was set), and the second call logs no loader call: only the contents load (when
recurse is set) and the reference increment. -/
theorem cache_identity (B : Store D) (s s1 s2 : State D) (i : Nat) (kA kB : ItemKind)
    (rA rB : Bool) (a b : ItemRef)
    (hA : entityGet kA B s i rA = .ok (some a) s1)
    (hB : entityGet kB B s1 i rB = .ok (some b) s2) :
    b.ptr = a.ptr ∧ s2.m_items = s1.m_items ∧
    (∃ o, deref s1.heap a.ptr = some o ∧
      deref s2.heap a.ptr =
        some { o with refCount := o.refCount + 1, contentsLoaded := o.contentsLoaded || rB }) ∧
    s2.log = s1.log ++ (if rB then [Event.loadContents a.ptr true] else []) ++
      [Event.incRef a.ptr] := by
  obtain ⟨_, hf, o, ho⟩ := entityGet_ok_some hA
  rw [entityGet_hit kB B s1 i rB a.ptr hf] at hB
  cases rB with
  | false =>
    simp only [Bool.false_eq_true, if_false] at hB
    obtain ⟨t, ht, hb, hs⟩ := returnRef_ok hB
    rw [ho] at ht
    cases ht
    cases hb
    subst hs
    refine ⟨rfl, rfl, ⟨o, ho, ?_⟩, by simp⟩
    simpa using deref_set_self (t := { o with refCount := o.refCount + 1 }) ho (by simp)
  | true =>
    simp only [if_true] at hB
    rcases LoadContents_shape B s1 a.ptr true with ⟨_, hl⟩ | ⟨c, db', _, hl⟩ | ⟨c, db', hc, hl⟩
    · rw [hl] at hB; cases hB
    · rw [hl] at hB; cases hB
    · rw [hl] at hB
      rw [ho] at hc
      cases hc
      obtain ⟨t, ht, hb, hs⟩ := returnRef_ok hB
      have hmid : deref (s1.heap.set a.ptr { o with contentsLoaded := true }) a.ptr =
          some { o with contentsLoaded := true } :=
        deref_set_self ho (by simpa using (deref_some ho).2)
      simp only [hmid] at ht
      cases ht
      cases hb
      subst hs
      refine ⟨rfl, rfl, ⟨o, ho, ?_⟩, by simp⟩
      simpa using deref_set_self
        (t := { o with refCount := o.refCount + 1, contentsLoaded := true }) hmid (by simp)

/-- C1 at a concrete run: id 4 is loaded as a Blueprint and then fetched through the
base-class accessor with recurse set; both calls return pointer 0. -/
theorem cache_identity_witness :
    (⟨ItemKind.item, 0⟩ : ItemRef).ptr = (⟨ItemKind.blueprint, 0⟩ : ItemRef).ptr ∧
    afterGetItem4.m_items = afterGetBlueprint4.m_items ∧
    (∃ o, deref afterGetBlueprint4.heap 0 = some o ∧
      deref afterGetItem4.heap 0 =
        some { o with refCount := o.refCount + 1, contentsLoaded := o.contentsLoaded || true }) ∧
    afterGetItem4.log = afterGetBlueprint4.log ++
      (if true = true then [Event.loadContents 0 true] else []) ++ [Event.incRef 0] :=
  cache_identity sampleStore (State.empty 0) afterGetBlueprint4 afterGetItem4 4 .blueprint .item
    false true ⟨.blueprint, 0⟩ ⟨.item, 0⟩ (by decide) (by decide)


/-! ## Taxonomy accessors -/

theorem loadTypeAs_eq (k : TypeKind) (B : Store D) (s : State D) (id : Nat) :
    loadTypeAs k B s id =
      ((B.typeLoad k s.db id).1.map k.tag,
        { s with db := (B.typeLoad k s.db id).2, log := s.log ++ [.typeLoad k id] }) := rfl

theorem typeGet_hit (k : TypeKind) (B : Store D) (s : State D) (id : Nat) (n : TypeNode)
    (h : IdMap.find s.m_types id = some n) : typeGet k B s id = (some ⟨k, n⟩, s) := by
  cases k <;> simp [typeGet, GetType, GetBlueprintType, GetCharacterType, GetShipType, h]

theorem typeGet_miss (k : TypeKind) (B : Store D) (s : State D) (id : Nat)
    (h : IdMap.find s.m_types id = none) :
    typeGet k B s id =
      match loadTypeAs k B s id with
      | (none, s1) => (none, s1)
      | (some n, s1) =>
          (some ⟨k, (IdMap.insert s1.m_types id n).2⟩,
            { s1 with m_types := (IdMap.insert s1.m_types id n).1 }) := by
  cases k <;>
    simp [typeGet, GetType, GetBlueprintType, GetCharacterType, GetShipType, h, TypeNode.Load,
      BlueprintType.Load, CharacterType.Load, ShipType.Load]

/-- The miss path of a type accessor when the loader answers with node `n`: the node is
entered under the id and returned typed as the requested class. -/
theorem typeGet_miss_some (k : TypeKind) (B : Store D) (s s1 : State D) (id : Nat) (n : TypeNode)
    (h : IdMap.find s.m_types id = none) (hl : loadTypeAs k B s id = (some n, s1)) :
    typeGet k B s id = (some ⟨k, n⟩, { s1 with m_types := IdMap.place id n s.m_types }) := by
  have hm : s1.m_types = s.m_types := by
    rw [loadTypeAs_eq] at hl
    injection hl with _ h2
    rw [← h2]
  rw [typeGet_miss k B s id h, hl]
  simp only [hm, IdMap.insert_of_absent _ _ _ h]

theorem typeGet_miss_none (k : TypeKind) (B : Store D) (s s1 : State D) (id : Nat)
    (h : IdMap.find s.m_types id = none) (hl : loadTypeAs k B s id = (none, s1)) :
    typeGet k B s id = (none, s1) := by
  rw [typeGet_miss k B s id h, hl]

theorem tag_kind (k : TypeKind) (n : TypeNode) (hk : k ≠ .type) : (k.tag n).kind = k := by
  cases k <;> simp [TypeKind.tag] at hk ⊢

/-- C2, as the claim states it, fails: type 5 is cached by `GetCharacterType(5)` as a node of
class CharacterType, and the following `GetShipType(5)` returns that node typed as ShipType. -/
theorem narrowing_counterexample :
    GetCharacterType sampleStore (State.empty 0) 5 =
      (some ⟨.characterType, ⟨.characterType, 5, 305⟩⟩,
        { State.empty 1 with m_types := [(5, ⟨.characterType, 5, 305⟩)],
                             log := [.typeLoad .characterType 5] }) ∧
    (GetShipType sampleStore (GetCharacterType sampleStore (State.empty 0) 5).2 5).1 =
      some ⟨.shipType, ⟨.characterType, 5, 305⟩⟩ := by
  decide

/-- C2 as amended (unchecked narrowing): when a type id is cached by a successful call of a
type accessor of class `kA`, the cached node has class `kA` (for a narrowed class), and a
following call of the accessor of any class `kB` performs no class check: it returns that
same node typed as `kB`, calls no loader and leaves the state unchanged. -/
theorem narrowing_unchecked (B : Store D) (s s1 : State D) (id : Nat) (kA kB : TypeKind)
    (r : TypeRef) (hmiss : IdMap.find s.m_types id = none)
    (hA : typeGet kA B s id = (some r, s1)) :
    r.presentedAs = kA ∧ (kA ≠ .type → r.node.kind = kA) ∧
    IdMap.find s1.m_types id = some r.node ∧
    typeGet kB B s1 id = (some ⟨kB, r.node⟩, s1) := by
  rw [typeGet_miss kA B s id hmiss, loadTypeAs_eq] at hA
  cases hl : (B.typeLoad kA s.db id).1 with
  | none => simp [hl] at hA
  | some n =>
    simp only [hl, Option.map_some', IdMap.insert_of_absent _ _ _ hmiss] at hA
    injection hA with h1 h2
    injection h1 with h1
    subst h1
    subst h2
    have hf : IdMap.find (IdMap.place id (kA.tag n) s.m_types) id = some (kA.tag n) :=
      IdMap.find_place_self _ _ _ hmiss
    exact ⟨rfl, fun hk => tag_kind kA n hk, hf, typeGet_hit kB B _ id _ hf⟩

/-- C2 as amended, at a concrete run: type 5 cached through `GetCharacterType`, then asked for
through `GetShipType`. -/
theorem narrowing_unchecked_witness :
    (⟨.characterType, ⟨.characterType, 5, 305⟩⟩ : TypeRef).presentedAs = .characterType ∧
    (TypeKind.characterType ≠ .type →
      (⟨.characterType, ⟨.characterType, 5, 305⟩⟩ : TypeRef).node.kind = .characterType) ∧
    IdMap.find (GetCharacterType sampleStore (State.empty 0) 5).2.m_types 5 =
      some ⟨.characterType, 5, 305⟩ ∧
    typeGet .shipType sampleStore (GetCharacterType sampleStore (State.empty 0) 5).2 5 =
      (some ⟨.shipType, ⟨.characterType, 5, 305⟩⟩,
        (GetCharacterType sampleStore (State.empty 0) 5).2) :=
  narrowing_unchecked sampleStore (State.empty 0) (GetCharacterType sampleStore (State.empty 0) 5).2
    5 .characterType .shipType ⟨.characterType, ⟨.characterType, 5, 305⟩⟩ (by decide) (by decide)

/-! ## Spawning -/

theorem tag_refCount (k : ItemKind) (o : InventoryItem) : (k.tag o).refCount = o.refCount := by
  cases k <;> rfl

theorem tag_itemID (k : ItemKind) (o : InventoryItem) : (k.tag o).itemID = o.itemID := by
  cases k <;> rfl

theorem heap_set_last (h : Heap) (a b : InventoryItem) :
    (h ++ [a]).set h.length b = h ++ [b] := by
  simp [List.set_append]

/-- The three spawners at once: the store is asked once, a returned object is put in the fresh
heap cell `s.heap.length`, and the common tail stores and returns it. -/
theorem entitySpawn_eq (B : Store D) (s : State D) (args : SpawnArgs) :
    entitySpawn B s args =
      match newObject args.kind (B.spawn s.db args).1
          { s with db := (B.spawn s.db args).2, log := s.log ++ [.itemSpawn args.kind] } with
      | (none, s1) => .ok none s1
      | (some i, s1) => storeSpawned args.kind s1 i := by
  cases args <;>
    simp [entitySpawn, SpawnItem, SpawnBlueprint, SpawnCharacter, InventoryItem.Spawn,
      Blueprint.Spawn, Character.Spawn, Store.spawn, SpawnArgs.kind, State.emit]

theorem entitySpawn_none (B : Store D) (s : State D) (args : SpawnArgs) (db' : D)
    (h : B.spawn s.db args = (none, db')) :
    entitySpawn B s args =
      .ok none { s with db := db', log := s.log ++ [.itemSpawn args.kind] } := by
  rw [entitySpawn_eq, h]
  simp [newObject]

theorem entitySpawn_some (B : Store D) (s : State D) (args : SpawnArgs) (o : InventoryItem)
    (db' : D) (h : B.spawn s.db args = (some o, db')) :
    entitySpawn B s args =
      if o.refCount = 0 then .fault else
        .ok (some ⟨args.kind, s.heap.length⟩)
          { s with m_items := IdMap.assign s.m_items o.itemID s.heap.length,
                   heap := s.heap ++ [{ args.kind.tag o with refCount := o.refCount + 1 }],
                   db := db',
                   log := s.log ++ [.itemSpawn args.kind, .incRef s.heap.length] } := by
  rw [entitySpawn_eq, h]
  have hn := deref_alloc_new s.heap (args.kind.tag o)
  simp only [alloc, tag_refCount] at hn
  by_cases hz : o.refCount = 0
  · simp only [hz, if_true] at hn ⊢
    simp [newObject, alloc, storeSpawned, itemID, hn]
  · simp only [hz, if_false] at hn ⊢
    simp [newObject, alloc, storeSpawned, itemID, hn, returnRef, IncRef, State.emit,
      tag_refCount, tag_itemID, heap_set_last]

/-- A successful spawn, spelled out: the store returned an object `o` with a positive count,
the reference handed out is the fresh pointer `s.heap.length`, and the state reached is the
one `entitySpawn_some` gives. -/
theorem entitySpawn_ok_some {B : Store D} {s s1 : State D} {args : SpawnArgs} {r : ItemRef}
    (h : entitySpawn B s args = .ok (some r) s1) :
    ∃ o db', B.spawn s.db args = (some o, db') ∧ o.refCount ≠ 0 ∧
      r = ⟨args.kind, s.heap.length⟩ ∧
      s1 = { s with m_items := IdMap.assign s.m_items o.itemID s.heap.length,
                    heap := s.heap ++ [{ args.kind.tag o with refCount := o.refCount + 1 }],
                    db := db',
                    log := s.log ++ [.itemSpawn args.kind, .incRef s.heap.length] } := by
  rcases hs : B.spawn s.db args with ⟨ro, db'⟩
  cases ro with
  | none => rw [entitySpawn_none B s args db' hs] at h; cases h
  | some o =>
    rw [entitySpawn_some B s args o db' hs] at h
    by_cases hz : o.refCount = 0
    · simp [hz] at h
    · simp only [hz, if_false] at h
      injection h with h1 h2
      injection h1 with h1
      exact ⟨o, db', rfl, hz, h1.symm, h2.symm⟩

theorem deref_append_old {h : Heap} {q : Ptr} {o : InventoryItem} (t : InventoryItem)
    (hd : deref h q = some o) : deref (h ++ [t]) q = some o :=
  deref_alloc_old t hd

theorem deref_append_new (h : Heap) (t : InventoryItem) (ht : t.refCount ≠ 0) :
    deref (h ++ [t]) h.length = some t := by
  have := deref_alloc_new h t
  simpa [alloc, ht] using this

theorem deref_lt {h : Heap} {p : Ptr} {o : InventoryItem} (hd : deref h p = some o) :
    p < h.length :=
  (List.getElem?_eq_some.1 (deref_some hd).1).1

/-- C3, as the claim states it, fails: id 5 is cached under pointer 0, the sample store spawns
an entity whose item id is 5 again, and after `SpawnItem` id 5 maps to the new pointer 1. -/
theorem spawn_overwrites_counterexample :
    GetItem sampleStore (State.empty 0) 5 false = .ok (some ⟨.item, 0⟩) afterGetItem5 ∧
    IdMap.find afterGetItem5.m_items 5 = some 0 ∧
    SpawnItem sampleStore afterGetItem5 ⟨5⟩ = .ok (some ⟨.item, 1⟩) afterSpawn5 ∧
    IdMap.find afterSpawn5.m_items 5 = some 1 := by
  decide

/-- C3 as amended (spawning keeps every entry but the one of the new id): after a successful
SpawnItem, SpawnBlueprint or SpawnCharacter the reference handed out denotes a live object,
the item id of that object maps to it (whether or not that id was cached before), every other
id maps to what it mapped to before, and every object that was live before the call is
unchanged and is not the new object. -/
theorem spawn_keeps_other_entries (B : Store D) (s s1 : State D) (args : SpawnArgs)
    (r : ItemRef) (h : entitySpawn B s args = .ok (some r) s1) :
    ∃ o, deref s1.heap r.ptr = some o ∧
      IdMap.find s1.m_items o.itemID = some r.ptr ∧
      (∀ j, j ≠ o.itemID → IdMap.find s1.m_items j = IdMap.find s.m_items j) ∧
      (∀ p t, deref s.heap p = some t → deref s1.heap p = some t ∧ p ≠ r.ptr) := by
  obtain ⟨o, db', _, hz, hr, hs⟩ := entitySpawn_ok_some h
  subst hr
  subst hs
  refine ⟨{ args.kind.tag o with refCount := o.refCount + 1 },
    deref_append_new _ _ (by simp), ?_, ?_, ?_⟩
  · simpa [tag_itemID] using IdMap.find_assign_self s.m_items o.itemID s.heap.length
  · intro j hj
    simpa [tag_itemID] using
      IdMap.find_assign_other s.m_items o.itemID j s.heap.length (by simpa [tag_itemID] using hj)
  · intro p t ht
    exact ⟨deref_append_old _ ht, Nat.ne_of_lt (deref_lt ht)⟩

/-- C3 as amended, at the colliding run: id 5 is cached, an entity with item id 5 is spawned. -/
theorem spawn_keeps_other_entries_witness :
    ∃ o, deref afterSpawn5.heap (⟨.item, 1⟩ : ItemRef).ptr = some o ∧
      IdMap.find afterSpawn5.m_items o.itemID = some (⟨.item, 1⟩ : ItemRef).ptr ∧
      (∀ j, j ≠ o.itemID → IdMap.find afterSpawn5.m_items j = IdMap.find afterGetItem5.m_items j) ∧
      (∀ p t, deref afterGetItem5.heap p = some t →
        deref afterSpawn5.heap p = some t ∧ p ≠ (⟨.item, 1⟩ : ItemRef).ptr) :=
  spawn_keeps_other_entries sampleStore afterGetItem5 afterSpawn5 (.item ⟨5⟩) ⟨.item, 1⟩
    (by decide)

/-! ## Hits on live entities -/

/-- An entity get that hits a live object, spelled out for all three accessors: with
`recurse` the contents are loaded first and a failure ends the call with `NULL`; otherwise,
and after a successful contents load, one more reference is counted and the cached pointer is
returned. -/
theorem entityGet_hit_live (k : ItemKind) (B : Store D) (s : State D) (id : Nat) (recurse : Bool)
    (p : Ptr) (o : InventoryItem) (hf : IdMap.find s.m_items id = some p)
    (hd : deref s.heap p = some o) :
    entityGet k B s id recurse =
      if recurse then
        if (B.loadContents s.db o true).1 then
          .ok (some ⟨k, p⟩)
            { s with heap := s.heap.set p
                       { o with refCount := o.refCount + 1, contentsLoaded := true },
                     db := (B.loadContents s.db o true).2,
                     log := s.log ++ [.loadContents p true, .incRef p] }
        else
          .ok none { s with db := (B.loadContents s.db o true).2,
                            log := s.log ++ [.loadContents p true] }
      else
        .ok (some ⟨k, p⟩)
          { s with heap := s.heap.set p { o with refCount := o.refCount + 1 },
                   log := s.log ++ [.incRef p] } := by
  rw [entityGet_hit k B s id recurse p hf]
  cases recurse with
  | false => simp [returnRef_live k s p o hd]
  | true =>
    simp only [if_true]
    rcases hl : B.loadContents s.db o true with ⟨ok, db'⟩
    cases ok with
    | false => simp [LoadContents, hd, hl, State.emit]
    | true =>
      have hmid : deref (s.heap.set p { o with contentsLoaded := true }) p =
          some { o with contentsLoaded := true } :=
        deref_set_self hd (by simpa using (deref_some hd).2)
      simp [LoadContents, hd, hl, State.emit, returnRef, IncRef, hmid, List.set_set]

/-! ## Spawn, then get -/

/-- C4, as the claim states it, fails when the get asks for the contents: an entity with id 7
is spawned and cached under pointer 0, its contents cannot be loaded, and `GetItem(7, true)`
returns `NULL`. -/
theorem spawn_then_get_counterexample :
    SpawnItem noContentsStore (State.empty 0) ⟨7⟩ = .ok (some ⟨.item, 0⟩) afterSpawn7 ∧
    IdMap.find afterSpawn7.m_items 7 = some 0 ∧
    GetItem noContentsStore afterSpawn7 7 true =
      .ok none { afterSpawn7 with db := 2, log := afterSpawn7.log ++ [.loadContents 0 true] } := by
  decide

/-- C4 as amended (spawn-then-get round trip): after a successful SpawnItem, SpawnBlueprint
or SpawnCharacter that handed out reference `r` to an entity with item id X, the cache maps X
to that entity, and the get of the same class for X, called next, completes, calls no
loader, leaves the id-to-entity map unchanged and returns the same reference `r`, except that
with `recurse` set and the contents load failing it returns `NULL`. -/
theorem spawn_then_get (B : Store D) (s s1 : State D) (args : SpawnArgs) (r : ItemRef)
    (recurse : Bool) (h : entitySpawn B s args = .ok (some r) s1) :
    ∃ o, deref s1.heap r.ptr = some o ∧ IdMap.find s1.m_items o.itemID = some r.ptr ∧
      ∃ res s2, entityGet args.kind B s1 o.itemID recurse = .ok res s2 ∧
        res = (if recurse && !(B.loadContents s1.db o true).1 then none else some r) ∧
        s2.m_items = s1.m_items ∧
        s2.log = s1.log ++ (if recurse then [Event.loadContents r.ptr true] else []) ++
          (if res.isSome then [Event.incRef r.ptr] else []) := by
  obtain ⟨o, db', _, hz, hr, hs⟩ := entitySpawn_ok_some h
  have hd : deref s1.heap r.ptr = some { args.kind.tag o with refCount := o.refCount + 1 } := by
    subst hr; subst hs
    exact deref_append_new _ _ (by simp)
  have hf : IdMap.find s1.m_items
      ({ args.kind.tag o with refCount := o.refCount + 1 } : InventoryItem).itemID =
        some r.ptr := by
    subst hr; subst hs
    simpa [tag_itemID] using IdMap.find_assign_self s.m_items o.itemID s.heap.length
  refine ⟨_, hd, hf, ?_⟩
  rw [entityGet_hit_live args.kind B s1 _ recurse r.ptr _ hf hd]
  have hrr : (⟨args.kind, r.ptr⟩ : ItemRef) = r := by rw [hr]
  cases recurse with
  | false => exact ⟨_, _, rfl, by simp [hrr], rfl, by simp⟩
  | true =>
    cases hl : (B.loadContents s1.db
        { args.kind.tag o with refCount := o.refCount + 1 } true).1 with
    | false =>
      simp only [if_true, hl, Bool.false_eq_true, if_false]
      exact ⟨_, _, rfl, by simp, rfl, by simp⟩
    | true =>
      simp only [if_true, hl]
      exact ⟨_, _, rfl, by simp [hrr], rfl, by simp⟩

/-- C4 as amended, at a concrete run: an entity with id 7 is spawned on the sample store and
fetched with `recurse` set. -/
theorem spawn_then_get_witness :
    ∃ o, deref afterSpawn7.heap (⟨.item, 0⟩ : ItemRef).ptr = some o ∧
      IdMap.find afterSpawn7.m_items o.itemID = some (⟨.item, 0⟩ : ItemRef).ptr ∧
      ∃ res s2, entityGet (SpawnArgs.item ⟨7⟩).kind sampleStore afterSpawn7 o.itemID true =
          .ok res s2 ∧
        res = (if true && !(sampleStore.loadContents afterSpawn7.db o true).1 then none
          else some ⟨.item, 0⟩) ∧
        s2.m_items = afterSpawn7.m_items ∧
        s2.log = afterSpawn7.log ++
          (if true = true then [Event.loadContents (⟨.item, 0⟩ : ItemRef).ptr true] else []) ++
          (if res.isSome then [Event.incRef (⟨.item, 0⟩ : ItemRef).ptr] else []) :=
  spawn_then_get sampleStore (State.empty 0) afterSpawn7 (.item ⟨7⟩) ⟨.item, 0⟩ true
    (by decide)

/-! ## Misses, spelled out -/

theorem entityGet_miss_none (k : ItemKind) (B : Store D) (s : State D) (id : Nat)
    (recurse : Bool) (db' : D) (hf : IdMap.find s.m_items id = none)
    (h : B.itemLoad k s.db id recurse = (none, db')) :
    entityGet k B s id recurse =
      .ok none { s with db := db', log := s.log ++ [.itemLoad k id recurse] } := by
  rw [entityGet_miss k B s id recurse hf, loadItemAs_none k B s id recurse db' h]

theorem entityGet_miss_some (k : ItemKind) (B : Store D) (s : State D) (id : Nat)
    (recurse : Bool) (o : InventoryItem) (db' : D) (hf : IdMap.find s.m_items id = none)
    (h : B.itemLoad k s.db id recurse = (some o, db')) :
    entityGet k B s id recurse =
      if o.refCount = 0 then .fault else
        .ok (some ⟨k, s.heap.length⟩)
          { s with m_items := IdMap.place id s.heap.length s.m_items,
                   heap := s.heap ++ [{ k.tag o with refCount := o.refCount + 1 }],
                   db := db',
                   log := s.log ++ [.itemLoad k id recurse, .incRef s.heap.length] } := by
  rw [entityGet_miss k B s id recurse hf, loadItemAs_some k B s id recurse o db' h]
  simp only [IdMap.insert_of_absent _ _ _ hf]
  have hn := deref_alloc_new s.heap (k.tag o)
  simp only [alloc, tag_refCount] at hn
  by_cases hz : o.refCount = 0
  · simp only [hz, if_true] at hn ⊢
    simp [returnRef, IncRef, hn]
  · simp only [hz, if_false] at hn ⊢
    simp [returnRef, IncRef, hn, State.emit, tag_refCount, heap_set_last]

/-! ## Deleting -/

theorem _DeleteItem_miss (s : State D) (id : Nat) (hf : IdMap.find s.m_items id = none) :
    _DeleteItem s id = .ok () { s with log := s.log ++ [.codelogError id] } := by
  simp [_DeleteItem, hf, State.emit]

theorem _DeleteItem_hit_live (s : State D) (id : Nat) (p : Ptr) (o : InventoryItem)
    (hf : IdMap.find s.m_items id = some p) (hd : deref s.heap p = some o) :
    _DeleteItem s id =
      .ok () { s with m_items := IdMap.erase s.m_items id,
                      heap := s.heap.set p { o with refCount := o.refCount - 1 },
                      log := s.log ++ [.decRef p] } := by
  simp [_DeleteItem, hf, DecRef_live s p o hd]

/-- C5 (delete really removes the entry): when id X is cached under a live entity,
`_DeleteItem(X)` completes; afterwards X is absent from the entity cache, every other id maps
to what it mapped to before, the object that was stored under X has its reference count
lowered by exactly one and no other heap cell is touched; and `GetItem(X)`, called next,
takes the miss path: whatever the store answers, the call logs exactly one `Load` of X. -/
theorem delete_removes_entry (B : Store D) (s : State D) (X : Nat) (p : Ptr)
    (o : InventoryItem) (recurse : Bool) (hf : IdMap.find s.m_items X = some p)
    (hd : deref s.heap p = some o) :
    ∃ s1, _DeleteItem s X = .ok () s1 ∧
      IdMap.find s1.m_items X = none ∧
      (∀ j, j ≠ X → IdMap.find s1.m_items j = IdMap.find s.m_items j) ∧
      (∃ c, o.refCount = c + 1 ∧ s1.heap[p]? = some { o with refCount := c }) ∧
      (∀ q, q ≠ p → s1.heap[q]? = s.heap[q]?) ∧
      s1.log = s.log ++ [.decRef p] ∧
      (∀ db', B.itemLoad .item s1.db X recurse = (none, db') →
        GetItem B s1 X recurse =
          .ok none { s1 with db := db', log := s1.log ++ [.itemLoad .item X recurse] }) ∧
      (∀ n db', B.itemLoad .item s1.db X recurse = (some n, db') → n.refCount ≠ 0 →
        GetItem B s1 X recurse =
          .ok (some ⟨.item, s1.heap.length⟩)
            { s1 with m_items := IdMap.place X s1.heap.length s1.m_items,
                      heap := s1.heap ++ [{ n with refCount := n.refCount + 1 }],
                      db := db',
                      log := s1.log ++ [.itemLoad .item X recurse, .incRef s1.heap.length] }) := by
  have hlt : p < s.heap.length := deref_lt hd
  have hx : IdMap.find (IdMap.erase s.m_items X) X = none := IdMap.find_erase_self _ _
  refine ⟨_, _DeleteItem_hit_live s X p o hf hd, hx,
    fun j hj => IdMap.find_erase_other _ _ _ hj, ?_, ?_, rfl, ?_, ?_⟩
  · obtain ⟨c, hc⟩ := Nat.exists_eq_succ_of_ne_zero (deref_some hd).2
    refine ⟨c, hc, ?_⟩
    simp [List.getElem?_set_self hlt, hc]
  · intro q hq
    simp [List.getElem?_set_ne (Ne.symm hq)]
  · intro db' hl
    exact entityGet_miss_none .item B _ X recurse db' hx hl
  · intro n db' hl hn
    have := entityGet_miss_some .item B _ X recurse n db' hx hl
    simpa [hn, ItemKind.tag, entityGet] using this

/-- C5 at a concrete run: id 5 is cached under pointer 0 with two references counted. -/
theorem delete_removes_entry_witness :
    ∃ s1, _DeleteItem afterGetItem5 5 = .ok () s1 ∧
      IdMap.find s1.m_items 5 = none ∧
      (∀ j, j ≠ 5 → IdMap.find s1.m_items j = IdMap.find afterGetItem5.m_items j) ∧
      (∃ c, (⟨.item, 5, 2, false, 405⟩ : InventoryItem).refCount = c + 1 ∧
        s1.heap[0]? = some { (⟨.item, 5, 2, false, 405⟩ : InventoryItem) with refCount := c }) ∧
      (∀ q, q ≠ 0 → s1.heap[q]? = afterGetItem5.heap[q]?) ∧
      s1.log = afterGetItem5.log ++ [.decRef 0] ∧
      (∀ db', sampleStore.itemLoad .item s1.db 5 false = (none, db') →
        GetItem sampleStore s1 5 false =
          .ok none { s1 with db := db', log := s1.log ++ [.itemLoad .item 5 false] }) ∧
      (∀ n db', sampleStore.itemLoad .item s1.db 5 false = (some n, db') → n.refCount ≠ 0 →
        GetItem sampleStore s1 5 false =
          .ok (some ⟨.item, s1.heap.length⟩)
            { s1 with m_items := IdMap.place 5 s1.heap.length s1.m_items,
                      heap := s1.heap ++ [{ n with refCount := n.refCount + 1 }],
                      db := db',
                      log := s1.log ++ [.itemLoad .item 5 false, .incRef s1.heap.length] }) :=
  delete_removes_entry sampleStore afterGetItem5 5 0 ⟨.item, 5, 2, false, 405⟩ false
    (by decide) (by decide)

/-- The concrete run of C5 evaluated: the delete, and the get that follows it. -/
theorem delete_then_get_run :
    _DeleteItem afterGetItem5 5 = .ok () afterDelete5 ∧
    GetItem sampleStore afterDelete5 5 false =
      .ok (some ⟨.item, 1⟩)
        { afterDelete5 with
          m_items := [(5, 1)]
          heap := [⟨.item, 5, 1, false, 405⟩, ⟨.item, 5, 2, false, 405⟩]
          db := 2
          log := afterDelete5.log ++ [.itemLoad .item 5 false, .incRef 1] } := by
  decide

/-- C6 (deleting an unknown id is a reported no-op): when X is not cached, `_DeleteItem(X)`
completes and the state reached differs from the state before only by one error entry naming
X at the end of the log, so the four maps, the heap with every reference count, and the store
are as before; when X is cached under a live entity the call completes and the only entry
it logs is the release of that entity, no error. -/
theorem delete_unknown_reported (s : State D) (X : Nat) :
    (IdMap.find s.m_items X = none →
      _DeleteItem s X = .ok () { s with log := s.log ++ [.codelogError X] }) ∧
    (∀ p o, IdMap.find s.m_items X = some p → deref s.heap p = some o →
      ∃ s1, _DeleteItem s X = .ok () s1 ∧ s1.log = s.log ++ [.decRef p]) :=
  ⟨fun hf => _DeleteItem_miss s X hf,
    fun p o hf hd => ⟨_, _DeleteItem_hit_live s X p o hf hd, rfl⟩⟩

/-- C6 at a concrete state: id 9 is not cached, id 5 is. -/
theorem delete_unknown_reported_witness :
    _DeleteItem afterGetItem5 9 =
      .ok () { afterGetItem5 with log := afterGetItem5.log ++ [.codelogError 9] } ∧
    ∃ s1, _DeleteItem afterGetItem5 5 = .ok () s1 ∧ s1.log = afterGetItem5.log ++ [.decRef 0] :=
  ⟨(delete_unknown_reported afterGetItem5 9).1 (by decide),
    (delete_unknown_reported afterGetItem5 5).2 0 ⟨.item, 5, 2, false, 405⟩ (by decide)
      (by decide)⟩

/-! ## Teardown -/

theorem saveAndRelease_live (B : Store D) (s : State D) (p : Ptr) (o : InventoryItem)
    (hd : deref s.heap p = some o) :
    saveAndRelease B s p =
      .ok () { s with heap := s.heap.set p { o with refCount := o.refCount - 1 },
                      db := B.save s.db o false,
                      log := s.log ++ [.save p false, .decRef p] } := by
  simp [saveAndRelease, Save, DecRef, hd, State.emit]

/-- The items loop over entries whose pointers are live and pairwise different: it completes,
logs `releaseLog`, leaves the four maps alone and touches no heap cell outside the entries. -/
theorem releaseItems_live (B : Store D) (l : List (Nat × Ptr)) :
    ∀ s : State D, (∀ e ∈ l, ∃ o, deref s.heap e.2 = some o) → (l.map Prod.snd).Nodup →
      ∃ s1, releaseItems B s l = .ok () s1 ∧ s1.log = s.log ++ releaseLog l ∧
        s1.m_items = s.m_items ∧ s1.m_types = s.m_types ∧ s1.m_groups = s.m_groups ∧
        s1.m_categories = s.m_categories ∧
        (∀ q, q ∉ l.map Prod.snd → s1.heap[q]? = s.heap[q]?) ∧
        (∀ e ∈ l, ∃ o, deref s.heap e.2 = some o ∧
          s1.heap[e.2]? = some { o with refCount := o.refCount - 1 }) := by
  induction l with
  | nil =>
    intro s _ _
    exact ⟨s, rfl, by simp [releaseLog], rfl, rfl, rfl, rfl, fun _ _ => rfl, by simp⟩
  | cons e rest ih =>
    obtain ⟨id, p⟩ := e
    intro s hlive hnd
    obtain ⟨o, ho⟩ := hlive (id, p) (List.mem_cons_self _ _)
    simp only [List.map_cons, List.nodup_cons] at hnd
    obtain ⟨hp, hrest⟩ := hnd
    have hne : ∀ e ∈ rest, e.2 ≠ p := by
      intro e he hep
      exact hp (List.mem_map.2 ⟨e, he, hep⟩)
    have hlt : p < s.heap.length := deref_lt ho
    obtain ⟨s1, hrun, hlog, hi, ht, hg, hc, hout, hin⟩ :=
      ih { s with heap := s.heap.set p { o with refCount := o.refCount - 1 },
                  db := B.save s.db o false,
                  log := s.log ++ [.save p false, .decRef p] }
        (by
          intro e he
          obtain ⟨t, ht⟩ := hlive e (List.mem_cons_of_mem _ he)
          exact ⟨t, by rw [deref_set_other _ (hne e he)]; exact ht⟩)
        hrest
    refine ⟨s1, ?_, ?_, hi, ht, hg, hc, ?_, ?_⟩
    · simp only [releaseItems, saveAndRelease_live B s p o ho]
      exact hrun
    · rw [hlog]
      simp [releaseLog]
    · intro q hq
      simp only [List.map_cons, List.mem_cons, not_or] at hq
      rw [hout q hq.2]
      simp [List.getElem?_set_ne (Ne.symm hq.1)]
    · intro e he
      rcases List.mem_cons.1 he with rfl | he
      · refine ⟨o, ho, ?_⟩
        rw [hout p hp]
        simp [List.getElem?_set_self hlt]
      · obtain ⟨t, ht1, ht2⟩ := hin e he
        rw [deref_set_other _ (hne e he)] at ht1
        exact ⟨t, ht1, ht2⟩

theorem count_save_releaseLog (p : Ptr) (l : List (Nat × Ptr)) :
    (releaseLog l).count (.save p false) = (l.map Prod.snd).count p := by
  induction l with
  | nil => rfl
  | cons e rest ih =>
    obtain ⟨id, q⟩ := e
    by_cases hq : q = p
    · simp [releaseLog, List.count_cons, ih, hq]
    · simp [releaseLog, List.count_cons, ih, hq]

theorem count_decRef_releaseLog (p : Ptr) (l : List (Nat × Ptr)) :
    (releaseLog l).count (.decRef p) = (l.map Prod.snd).count p := by
  induction l with
  | nil => rfl
  | cons e rest ih =>
    obtain ⟨id, q⟩ := e
    by_cases hq : q = p
    · simp [releaseLog, List.count_cons, ih, hq]
    · simp [releaseLog, List.count_cons, ih, hq]

theorem mem_releaseLog_save {p : Ptr} {r : Bool} {l : List (Nat × Ptr)}
    (h : Event.save p r ∈ releaseLog l) : r = false ∧ p ∈ l.map Prod.snd := by
  induction l with
  | nil => simp [releaseLog] at h
  | cons e rest ih =>
    obtain ⟨id, q⟩ := e
    simp only [releaseLog, List.mem_cons, Event.save.injEq, reduceCtorEq, false_or] at h
    rcases h with ⟨hp, hr⟩ | h
    · exact ⟨hr, by simp [hp]⟩
    · exact ⟨(ih h).1, by simp [(ih h).2]⟩

theorem save_not_mem_deleteLog (s : State D) (p : Ptr) (r : Bool) :
    Event.save p r ∉ deleteLog s := by
  simp [deleteLog]

theorem decRef_not_mem_deleteLog (s : State D) (p : Ptr) : Event.decRef p ∉ deleteLog s := by
  simp [deleteLog]

/-- C7 (teardown persistence): when the cached pointers are live and pairwise different, the
destructor completes and appends to the log exactly `releaseLog` of the cached entries
followed by the deletes of the taxonomy nodes.  In what it appends, every cached entity has
exactly one save, which is non-recursive, and exactly one release, which comes right after its
save; every save is non-recursive and is for a cached entity, so no taxonomy node is saved;
and each cached entity ends with one reference less. -/
theorem teardown_persistence (B : Store D) (s : State D)
    (hlive : ∀ e ∈ s.m_items, (deref s.heap e.2).isSome = true)
    (hnd : (s.m_items.map Prod.snd).Nodup) :
    ∃ s1, destructor B s = .ok () s1 ∧
      s1.log = s.log ++ (releaseLog s.m_items ++ deleteLog s) ∧
      (∀ e ∈ s.m_items,
        (releaseLog s.m_items ++ deleteLog s).count (.save e.2 false) = 1 ∧
        (releaseLog s.m_items ++ deleteLog s).count (.decRef e.2) = 1) ∧
      (∀ p r, Event.save p r ∈ releaseLog s.m_items ++ deleteLog s →
        r = false ∧ p ∈ s.m_items.map Prod.snd) ∧
      (∀ e ∈ s.m_items, ∃ o, deref s.heap e.2 = some o ∧
        s1.heap[e.2]? = some { o with refCount := o.refCount - 1 }) := by
  have hlive' : ∀ e ∈ s.m_items, ∃ o, deref s.heap e.2 = some o := by
    intro e he
    exact Option.isSome_iff_exists.1 (hlive e he)
  obtain ⟨s1, hrun, hlog, hi, ht, hg, hc, _, hin⟩ := releaseItems_live B s.m_items s hlive' hnd
  refine ⟨{ s1 with m_items := [], m_types := [], m_groups := [], m_categories := [],
                    log := s1.log ++ deleteLog s1 },
    by simp [destructor, hrun, deleteLog], ?_, ?_, ?_, hin⟩
  · simp [hlog, ht, hg, hc, deleteLog]
  · intro e he
    have hmem : e.2 ∈ s.m_items.map Prod.snd := List.mem_map.2 ⟨e, he, rfl⟩
    rw [List.count_append, List.count_append, count_save_releaseLog, count_decRef_releaseLog,
      List.count_eq_zero_of_not_mem (save_not_mem_deleteLog s e.2 false),
      List.count_eq_zero_of_not_mem (decRef_not_mem_deleteLog s e.2),
      List.count_eq_one_of_mem hnd hmem]
    exact ⟨rfl, rfl⟩
  · intro p r h
    rcases List.mem_append.1 h with h | h
    · exact mem_releaseLog_save h
    · exact absurd h (save_not_mem_deleteLog s p r)

/-- C7 at a concrete state with two cached entities and one node of each taxonomy kind. -/
theorem teardown_persistence_witness :
    ∃ s1, destructor sampleStore twoItems = .ok () s1 ∧
      s1.log = twoItems.log ++ (releaseLog twoItems.m_items ++ deleteLog twoItems) ∧
      (∀ e ∈ twoItems.m_items,
        (releaseLog twoItems.m_items ++ deleteLog twoItems).count (.save e.2 false) = 1 ∧
        (releaseLog twoItems.m_items ++ deleteLog twoItems).count (.decRef e.2) = 1) ∧
      (∀ p r, Event.save p r ∈ releaseLog twoItems.m_items ++ deleteLog twoItems →
        r = false ∧ p ∈ twoItems.m_items.map Prod.snd) ∧
      (∀ e ∈ twoItems.m_items, ∃ o, deref twoItems.heap e.2 = some o ∧
        s1.heap[e.2]? = some { o with refCount := o.refCount - 1 }) :=
  teardown_persistence sampleStore twoItems (by decide) (by decide)

/-- The concrete teardown evaluated: what the destructor logs for `twoItems`. -/
theorem teardown_run :
    destructor sampleStore twoItems =
      .ok ()
        { m_categories := [], m_groups := [], m_types := [], m_items := [],
          heap := [⟨.item, 9, 0, false, 409⟩, ⟨.blueprint, 4, 2, true, 404⟩], db := 8,
          log := [.save 1 false, .decRef 1, .save 0 false, .decRef 0,
                  .deleteType ⟨.shipType, 3, 303⟩, .deleteGroup ⟨2, 202⟩,
                  .deleteCategory ⟨1, 101⟩] } := by
  decide

/-! ## Taxonomy lookup-or-load -/

theorem IdMap.find_place {α : Type} (k : Nat) (v : α) (m : IdMap α) (j : Nat)
    (h : IdMap.find m k = none) :
    IdMap.find (IdMap.place k v m) j = if j = k then some v else IdMap.find m j := by
  by_cases hj : j = k
  · rw [if_pos hj, hj]; exact IdMap.find_place_self k v m h
  · rw [if_neg hj]; exact IdMap.find_place_other k j v m hj

theorem Category_Load_eq (B : Store D) (s : State D) (id : Nat) :
    Category.Load B s id =
      ((B.categoryLoad s.db id).1,
        { s with db := (B.categoryLoad s.db id).2, log := s.log ++ [.categoryLoad id] }) := rfl

theorem Group_Load_eq (B : Store D) (s : State D) (id : Nat) :
    Group.Load B s id =
      ((B.groupLoad s.db id).1,
        { s with db := (B.groupLoad s.db id).2, log := s.log ++ [.groupLoad id] }) := rfl

theorem GetCategory_hit (B : Store D) (s : State D) (id : Nat) (n : Category)
    (h : IdMap.find s.m_categories id = some n) : GetCategory B s id = (some n, s) := by
  simp [GetCategory, h]

theorem GetGroup_hit (B : Store D) (s : State D) (id : Nat) (n : Group)
    (h : IdMap.find s.m_groups id = some n) : GetGroup B s id = (some n, s) := by
  simp [GetGroup, h]

theorem GetCategory_miss (B : Store D) (s : State D) (id : Nat)
    (h : IdMap.find s.m_categories id = none) :
    GetCategory B s id =
      match (B.categoryLoad s.db id).1 with
      | none =>
          (none, { s with db := (B.categoryLoad s.db id).2, log := s.log ++ [.categoryLoad id] })
      | some n =>
          (some n, { s with m_categories := IdMap.place id n s.m_categories,
                            db := (B.categoryLoad s.db id).2,
                            log := s.log ++ [.categoryLoad id] }) := by
  simp only [GetCategory, h, Category_Load_eq]
  cases hl : (B.categoryLoad s.db id).1 with
  | none => rfl
  | some n => simp [IdMap.insert_of_absent _ _ _ h]

theorem GetGroup_miss (B : Store D) (s : State D) (id : Nat)
    (h : IdMap.find s.m_groups id = none) :
    GetGroup B s id =
      match (B.groupLoad s.db id).1 with
      | none => (none, { s with db := (B.groupLoad s.db id).2, log := s.log ++ [.groupLoad id] })
      | some n =>
          (some n, { s with m_groups := IdMap.place id n s.m_groups,
                            db := (B.groupLoad s.db id).2,
                            log := s.log ++ [.groupLoad id] }) := by
  simp only [GetGroup, h, Group_Load_eq]
  cases hl : (B.groupLoad s.db id).1 with
  | none => rfl
  | some n => simp [IdMap.insert_of_absent _ _ _ h]

theorem typeGet_miss_eq (k : TypeKind) (B : Store D) (s : State D) (id : Nat)
    (h : IdMap.find s.m_types id = none) :
    typeGet k B s id =
      match (B.typeLoad k s.db id).1 with
      | none => (none, { s with db := (B.typeLoad k s.db id).2, log := s.log ++ [.typeLoad k id] })
      | some n =>
          (some ⟨k, k.tag n⟩, { s with m_types := IdMap.place id (k.tag n) s.m_types,
                                       db := (B.typeLoad k s.db id).2,
                                       log := s.log ++ [.typeLoad k id] }) := by
  rw [typeGet_miss k B s id h, loadTypeAs_eq]
  cases hl : (B.typeLoad k s.db id).1 with
  | none => rfl
  | some n => simp [IdMap.insert_of_absent _ _ _ h]

/-- C8 (taxonomy lookup-or-load), for GetCategory, GetGroup and the four accessors of
`m_types` (`typeGet k` for GetType, GetBlueprintType, GetCharacterType, GetShipType).  On a
hit the call returns the node stored under the id and the state is unchanged, so nothing is
loaded and no cache changes.  On a miss where the loader of the requested class returns node
`n`, the call returns `n`; the state reached differs from the state before by the one entry
`id -> n` put in that map, by what the loader did to the store, and by the one loader call for
that id appended to the log. -/
theorem taxonomy_lookup_or_load (B : Store D) (s : State D) (id : Nat) :
    (∀ n, IdMap.find s.m_categories id = some n → GetCategory B s id = (some n, s)) ∧
    (∀ n, IdMap.find s.m_categories id = none → (Category.Load B s id).1 = some n →
      GetCategory B s id =
        (some n, { s with m_categories := IdMap.place id n s.m_categories,
                          db := (Category.Load B s id).2.db,
                          log := s.log ++ [.categoryLoad id] }) ∧
      ∀ j, IdMap.find (IdMap.place id n s.m_categories) j =
        if j = id then some n else IdMap.find s.m_categories j) ∧
    (∀ n, IdMap.find s.m_groups id = some n → GetGroup B s id = (some n, s)) ∧
    (∀ n, IdMap.find s.m_groups id = none → (Group.Load B s id).1 = some n →
      GetGroup B s id =
        (some n, { s with m_groups := IdMap.place id n s.m_groups,
                          db := (Group.Load B s id).2.db,
                          log := s.log ++ [.groupLoad id] }) ∧
      ∀ j, IdMap.find (IdMap.place id n s.m_groups) j =
        if j = id then some n else IdMap.find s.m_groups j) ∧
    (∀ k n, IdMap.find s.m_types id = some n → typeGet k B s id = (some ⟨k, n⟩, s)) ∧
    (∀ k n, IdMap.find s.m_types id = none → (loadTypeAs k B s id).1 = some n →
      typeGet k B s id =
        (some ⟨k, n⟩, { s with m_types := IdMap.place id n s.m_types,
                               db := (loadTypeAs k B s id).2.db,
                               log := s.log ++ [.typeLoad k id] }) ∧
      ∀ j, IdMap.find (IdMap.place id n s.m_types) j =
        if j = id then some n else IdMap.find s.m_types j) := by
  refine ⟨fun n h => GetCategory_hit B s id n h, ?_, fun n h => GetGroup_hit B s id n h, ?_,
    fun k n h => typeGet_hit k B s id n h, ?_⟩
  · intro n h hl
    rw [Category_Load_eq] at hl
    refine ⟨?_, fun j => IdMap.find_place id n _ j h⟩
    rw [GetCategory_miss B s id h]
    simp only at hl
    rw [hl]
    rfl
  · intro n h hl
    rw [Group_Load_eq] at hl
    refine ⟨?_, fun j => IdMap.find_place id n _ j h⟩
    rw [GetGroup_miss B s id h]
    simp only at hl
    rw [hl]
    rfl
  · intro k n h hl
    rw [loadTypeAs_eq] at hl
    refine ⟨?_, fun j => IdMap.find_place id n _ j h⟩
    rw [typeGet_miss_eq k B s id h]
    simp only at hl
    cases hm : (B.typeLoad k s.db id).1 with
    | none => simp [hm] at hl
    | some t =>
      simp only [hm, Option.map_some', Option.some.injEq] at hl
      subst hl
      rfl

/-- C8 at concrete runs on the sample store: category 3, then group 7 and ship type 5 are
asked for twice; the first call loads, the second finds the node. -/
theorem taxonomy_lookup_or_load_witness :
    GetCategory sampleStore (State.empty 0) 3 =
      (some ⟨3, 103⟩, { State.empty 1 with m_categories := [(3, ⟨3, 103⟩)],
                                           log := [.categoryLoad 3] }) ∧
    GetCategory sampleStore (GetCategory sampleStore (State.empty 0) 3).2 3 =
      (some ⟨3, 103⟩, (GetCategory sampleStore (State.empty 0) 3).2) ∧
    GetGroup sampleStore (State.empty 0) 7 =
      (some ⟨7, 207⟩, { State.empty 1 with m_groups := [(7, ⟨7, 207⟩)],
                                           log := [.groupLoad 7] }) ∧
    GetGroup sampleStore (GetGroup sampleStore (State.empty 0) 7).2 7 =
      (some ⟨7, 207⟩, (GetGroup sampleStore (State.empty 0) 7).2) ∧
    typeGet .shipType sampleStore (State.empty 0) 5 =
      (some ⟨.shipType, ⟨.shipType, 5, 305⟩⟩,
        { State.empty 1 with m_types := [(5, ⟨.shipType, 5, 305⟩)],
                             log := [.typeLoad .shipType 5] }) ∧
    typeGet .shipType sampleStore (typeGet .shipType sampleStore (State.empty 0) 5).2 5 =
      (some ⟨.shipType, ⟨.shipType, 5, 305⟩⟩,
        (typeGet .shipType sampleStore (State.empty 0) 5).2) :=
  ⟨((taxonomy_lookup_or_load sampleStore (State.empty 0) 3).2.1 ⟨3, 103⟩ (by decide)
      (by decide)).1,
    (taxonomy_lookup_or_load sampleStore _ 3).1 ⟨3, 103⟩ (by decide),
    ((taxonomy_lookup_or_load sampleStore (State.empty 0) 7).2.2.2.1 ⟨7, 207⟩ (by decide)
      (by decide)).1,
    (taxonomy_lookup_or_load sampleStore _ 7).2.2.1 ⟨7, 207⟩ (by decide),
    ((taxonomy_lookup_or_load sampleStore (State.empty 0) 5).2.2.2.2.2 .shipType
      ⟨.shipType, 5, 305⟩ (by decide) (by decide)).1,
    (taxonomy_lookup_or_load sampleStore _ 5).2.2.2.2.1 .shipType ⟨.shipType, 5, 305⟩
      (by decide)⟩

/-! ## Taxonomy load failure -/

theorem GetCategory_miss_log (B : Store D) (s : State D) (id : Nat)
    (h : IdMap.find s.m_categories id = none) :
    (GetCategory B s id).2.log = s.log ++ [.categoryLoad id] := by
  rw [GetCategory_miss B s id h]
  cases (B.categoryLoad s.db id).1 <;> rfl

theorem GetGroup_miss_log (B : Store D) (s : State D) (id : Nat)
    (h : IdMap.find s.m_groups id = none) :
    (GetGroup B s id).2.log = s.log ++ [.groupLoad id] := by
  rw [GetGroup_miss B s id h]
  cases (B.groupLoad s.db id).1 <;> rfl

theorem typeGet_miss_log (k : TypeKind) (B : Store D) (s : State D) (id : Nat)
    (h : IdMap.find s.m_types id = none) :
    (typeGet k B s id).2.log = s.log ++ [.typeLoad k id] := by
  rw [typeGet_miss_eq k B s id h]
  cases (B.typeLoad k s.db id).1 <;> rfl

/-- C9 (taxonomy load failure is reported and not cached), for GetCategory, GetGroup and the
four accessors of `m_types`: when the id is not cached and the loader of the requested class
returns nothing, the call returns nothing, and the state reached differs from the state before
only in the store and in the one loader call appended to the log, so the three taxonomy maps,
the entity map and the heap are as before; the same call made again logs the loader call
again. -/
theorem taxonomy_load_failure (B : Store D) (s : State D) (id : Nat) :
    (IdMap.find s.m_categories id = none → (Category.Load B s id).1 = none →
      GetCategory B s id =
        (none, { s with db := (Category.Load B s id).2.db,
                        log := s.log ++ [.categoryLoad id] }) ∧
      (GetCategory B (GetCategory B s id).2 id).2.log =
        s.log ++ [.categoryLoad id, .categoryLoad id]) ∧
    (IdMap.find s.m_groups id = none → (Group.Load B s id).1 = none →
      GetGroup B s id =
        (none, { s with db := (Group.Load B s id).2.db, log := s.log ++ [.groupLoad id] }) ∧
      (GetGroup B (GetGroup B s id).2 id).2.log = s.log ++ [.groupLoad id, .groupLoad id]) ∧
    (∀ k, IdMap.find s.m_types id = none → (loadTypeAs k B s id).1 = none →
      typeGet k B s id =
        (none, { s with db := (loadTypeAs k B s id).2.db, log := s.log ++ [.typeLoad k id] }) ∧
      (typeGet k B (typeGet k B s id).2 id).2.log =
        s.log ++ [.typeLoad k id, .typeLoad k id]) := by
  refine ⟨?_, ?_, ?_⟩
  · intro h hl
    rw [Category_Load_eq] at hl
    simp only at hl
    have he : GetCategory B s id =
        (none, { s with db := (Category.Load B s id).2.db,
                        log := s.log ++ [.categoryLoad id] }) := by
      rw [GetCategory_miss B s id h, hl]; rfl
    refine ⟨he, ?_⟩
    have h2 := GetCategory_miss_log B
      { s with db := (Category.Load B s id).2.db, log := s.log ++ [.categoryLoad id] } id h
    rw [he]
    simpa using h2
  · intro h hl
    rw [Group_Load_eq] at hl
    simp only at hl
    have he : GetGroup B s id =
        (none, { s with db := (Group.Load B s id).2.db, log := s.log ++ [.groupLoad id] }) := by
      rw [GetGroup_miss B s id h, hl]; rfl
    refine ⟨he, ?_⟩
    have h2 := GetGroup_miss_log B
      { s with db := (Group.Load B s id).2.db, log := s.log ++ [.groupLoad id] } id h
    rw [he]
    simpa using h2
  · intro k h hl
    rw [loadTypeAs_eq] at hl
    simp only [Option.map_eq_none'] at hl
    have he : typeGet k B s id =
        (none, { s with db := (loadTypeAs k B s id).2.db, log := s.log ++ [.typeLoad k id] }) := by
      rw [typeGet_miss_eq k B s id h, hl]; rfl
    refine ⟨he, ?_⟩
    have h2 := typeGet_miss_log k B
      { s with db := (loadTypeAs k B s id).2.db, log := s.log ++ [.typeLoad k id] } id h
    rw [he]
    simpa using h2

/-- C9 at concrete runs on the sample store, which has no category 30, no group 70 and no
type 500. -/
theorem taxonomy_load_failure_witness :
    (GetCategory sampleStore (State.empty 0) 30 =
        (none, { State.empty 1 with log := [.categoryLoad 30] }) ∧
      (GetCategory sampleStore (GetCategory sampleStore (State.empty 0) 30).2 30).2.log =
        [.categoryLoad 30, .categoryLoad 30]) ∧
    (GetGroup sampleStore (State.empty 0) 70 =
        (none, { State.empty 1 with log := [.groupLoad 70] }) ∧
      (GetGroup sampleStore (GetGroup sampleStore (State.empty 0) 70).2 70).2.log =
        [.groupLoad 70, .groupLoad 70]) ∧
    (typeGet .shipType sampleStore (State.empty 0) 500 =
        (none, { State.empty 1 with log := [.typeLoad .shipType 500] }) ∧
      (typeGet .shipType sampleStore
          (typeGet .shipType sampleStore (State.empty 0) 500).2 500).2.log =
        [.typeLoad .shipType 500, .typeLoad .shipType 500]) :=
  ⟨(taxonomy_load_failure sampleStore (State.empty 0) 30).1 (by decide) (by decide),
    (taxonomy_load_failure sampleStore (State.empty 0) 70).2.1 (by decide) (by decide),
    (taxonomy_load_failure sampleStore (State.empty 0) 500).2.2 .shipType (by decide)
      (by decide)⟩

/-! ## Entity load and spawn failure -/

/-- C10 (entity load and spawn failure is atomic): when GetItem, GetBlueprint or GetCharacter
misses and the store's `Load` returns nothing, and when the store's `Spawn` returns nothing
for SpawnItem, SpawnBlueprint or SpawnCharacter, the call returns `NULL`, and the state
reached differs from the state before only in the store and in the one call appended to the
log: the id-to-entity map and the heap, so every reference count, are as before. -/
theorem entity_failure_atomic (B : Store D) (s : State D) :
    (∀ k id recurse, IdMap.find s.m_items id = none →
      (B.itemLoad k s.db id recurse).1 = none →
      entityGet k B s id recurse =
        .ok none { s with db := (B.itemLoad k s.db id recurse).2,
                          log := s.log ++ [.itemLoad k id recurse] }) ∧
    (∀ args, (B.spawn s.db args).1 = none →
      entitySpawn B s args =
        .ok none { s with db := (B.spawn s.db args).2,
                          log := s.log ++ [.itemSpawn args.kind] }) := by
  refine ⟨?_, ?_⟩
  · intro k id recurse hf hl
    exact entityGet_miss_none k B s id recurse _ hf (Prod.ext hl rfl)
  · intro args hl
    exact entitySpawn_none B s args _ (Prod.ext hl rfl)

/-- C10 at concrete runs on the sample store, which has no item 5000 and spawns nothing for
data code 0: the three accessors and the three spawners from a state with one cached entity. -/
theorem entity_failure_atomic_witness :
    (GetItem sampleStore afterGetItem5 5000 true =
        .ok none { afterGetItem5 with
          db := 2
          log := afterGetItem5.log ++ [.itemLoad .item 5000 true] } ∧
      GetBlueprint sampleStore afterGetItem5 5000 false =
        .ok none { afterGetItem5 with
          db := 2
          log := afterGetItem5.log ++ [.itemLoad .blueprint 5000 false] } ∧
      GetCharacter sampleStore afterGetItem5 5000 false =
        .ok none { afterGetItem5 with
          db := 2
          log := afterGetItem5.log ++ [.itemLoad .character 5000 false] }) ∧
    (SpawnItem sampleStore afterGetItem5 ⟨0⟩ =
        .ok none { afterGetItem5 with
          db := 2
          log := afterGetItem5.log ++ [.itemSpawn .item] } ∧
      SpawnBlueprint sampleStore afterGetItem5 ⟨0⟩ ⟨1⟩ =
        .ok none { afterGetItem5 with
          db := 2
          log := afterGetItem5.log ++ [.itemSpawn .blueprint] } ∧
      SpawnCharacter sampleStore afterGetItem5 ⟨0⟩ ⟨1⟩ ⟨2⟩ ⟨3⟩ =
        .ok none { afterGetItem5 with
          db := 2
          log := afterGetItem5.log ++ [.itemSpawn .character] }) :=
  ⟨⟨(entity_failure_atomic sampleStore afterGetItem5).1 .item 5000 true (by decide) (by decide),
      (entity_failure_atomic sampleStore afterGetItem5).1 .blueprint 5000 false (by decide)
        (by decide),
      (entity_failure_atomic sampleStore afterGetItem5).1 .character 5000 false (by decide)
        (by decide)⟩,
    ⟨(entity_failure_atomic sampleStore afterGetItem5).2 (.item ⟨0⟩) (by decide),
      (entity_failure_atomic sampleStore afterGetItem5).2 (.blueprint ⟨0⟩ ⟨1⟩) (by decide),
      (entity_failure_atomic sampleStore afterGetItem5).2 (.character ⟨0⟩ ⟨1⟩ ⟨2⟩ ⟨3⟩)
        (by decide)⟩⟩

/-! ## What the taxonomy accessors leave alone -/

theorem typeGet_frame (k : TypeKind) (B : Store D) (s : State D) (id : Nat) :
    (typeGet k B s id).2.m_categories = s.m_categories ∧
    (typeGet k B s id).2.m_groups = s.m_groups ∧
    (typeGet k B s id).2.m_items = s.m_items ∧
    (typeGet k B s id).2.heap = s.heap ∧
    (∀ j n, IdMap.find s.m_types j = some n →
      IdMap.find (typeGet k B s id).2.m_types j = some n) ∧
    (∀ j, j ≠ id → IdMap.find (typeGet k B s id).2.m_types j = IdMap.find s.m_types j) := by
  cases hf : IdMap.find s.m_types id with
  | some n =>
    rw [typeGet_hit k B s id n hf]
    exact ⟨rfl, rfl, rfl, rfl, fun _ _ h => h, fun _ _ => rfl⟩
  | none =>
    rw [typeGet_miss_eq k B s id hf]
    cases (B.typeLoad k s.db id).1 with
    | none => exact ⟨rfl, rfl, rfl, rfl, fun _ _ h => h, fun _ _ => rfl⟩
    | some t =>
      refine ⟨rfl, rfl, rfl, rfl, ?_, fun j hj => IdMap.find_place_other id j _ _ hj⟩
      intro j n hj
      have hne : j ≠ id := by
        intro he
        rw [he, hf] at hj
        cases hj
      exact (IdMap.find_place_other id j _ _ hne).trans hj

theorem GetCategory_frame (B : Store D) (s : State D) (id : Nat) :
    (GetCategory B s id).2.m_groups = s.m_groups ∧
    (GetCategory B s id).2.m_types = s.m_types ∧
    (GetCategory B s id).2.m_items = s.m_items ∧
    (GetCategory B s id).2.heap = s.heap ∧
    (∀ j n, IdMap.find s.m_categories j = some n →
      IdMap.find (GetCategory B s id).2.m_categories j = some n) := by
  cases hf : IdMap.find s.m_categories id with
  | some n =>
    rw [GetCategory_hit B s id n hf]
    exact ⟨rfl, rfl, rfl, rfl, fun _ _ h => h⟩
  | none =>
    rw [GetCategory_miss B s id hf]
    cases (B.categoryLoad s.db id).1 with
    | none => exact ⟨rfl, rfl, rfl, rfl, fun _ _ h => h⟩
    | some t =>
      refine ⟨rfl, rfl, rfl, rfl, ?_⟩
      intro j n hj
      have hne : j ≠ id := by
        intro he
        rw [he, hf] at hj
        cases hj
      exact (IdMap.find_place_other id j _ _ hne).trans hj

theorem GetGroup_frame (B : Store D) (s : State D) (id : Nat) :
    (GetGroup B s id).2.m_categories = s.m_categories ∧
    (GetGroup B s id).2.m_types = s.m_types ∧
    (GetGroup B s id).2.m_items = s.m_items ∧
    (GetGroup B s id).2.heap = s.heap ∧
    (∀ j n, IdMap.find s.m_groups j = some n →
      IdMap.find (GetGroup B s id).2.m_groups j = some n) := by
  cases hf : IdMap.find s.m_groups id with
  | some n =>
    rw [GetGroup_hit B s id n hf]
    exact ⟨rfl, rfl, rfl, rfl, fun _ _ h => h⟩
  | none =>
    rw [GetGroup_miss B s id hf]
    cases (B.groupLoad s.db id).1 with
    | none => exact ⟨rfl, rfl, rfl, rfl, fun _ _ h => h⟩
    | some t =>
      refine ⟨rfl, rfl, rfl, rfl, ?_⟩
      intro j n hj
      have hne : j ≠ id := by
        intro he
        rw [he, hf] at hj
        cases hj
      exact (IdMap.find_place_other id j _ _ hne).trans hj

/-! ## Character type by bloodline -/

theorem GetCharacterTypeByBloodline_none (B : Store D) (s : State D) (b : Nat) (db' : D)
    (h : B.characterTypeByBloodline s.db b = (none, db')) :
    GetCharacterTypeByBloodline B s b =
      (none, { s with db := db', log := s.log ++ [.bloodlineQuery b] }) := by
  simp [GetCharacterTypeByBloodline, h, State.emit]

theorem GetCharacterTypeByBloodline_some (B : Store D) (s : State D) (b t : Nat) (db' : D)
    (h : B.characterTypeByBloodline s.db b = (some t, db')) :
    GetCharacterTypeByBloodline B s b =
      GetCharacterType B { s with db := db', log := s.log ++ [.bloodlineQuery b] } t := by
  simp [GetCharacterTypeByBloodline, h, State.emit]

/-- What is already in the log has no influence on a type accessor. -/
theorem typeGet_log_irrelevant (k : TypeKind) (B : Store D) (s : State D) (id : Nat)
    (l : List Event) :
    (typeGet k B { s with log := l } id).1 = (typeGet k B s id).1 ∧
    (typeGet k B { s with log := l } id).2.m_types = (typeGet k B s id).2.m_types ∧
    (typeGet k B { s with log := l } id).2.db = (typeGet k B s id).2.db := by
  cases hf : IdMap.find s.m_types id with
  | some n =>
    rw [typeGet_hit k B s id n hf, typeGet_hit k B { s with log := l } id n hf]
    exact ⟨rfl, rfl, rfl⟩
  | none =>
    rw [typeGet_miss_eq k B s id hf, typeGet_miss_eq k B { s with log := l } id hf]
    cases (B.typeLoad k s.db id).1 <;> exact ⟨rfl, rfl, rfl⟩

/-- C11 (bloodline indirection): when the store does not resolve bloodline `b`,
`GetCharacterTypeByBloodline(b)` returns nothing and the state reached differs from the state
before only in the store and in the one bloodline query appended to the log: no type loader
is called and no cache changes.  When the store resolves `b` to type id `t`, the value
returned and the state reached are exactly those of `GetCharacterType(t)` run on the state
left by the query, which has the caches of the state before; the category, group and entity
maps and the heap end as they were, and in the type map only the entry under `t` can differ,
so nothing is stored under the bloodline id; and when the query leaves the store as it was,
the value, the type map and the store are those of `GetCharacterType(t)` run on the state
before. -/
theorem bloodline_indirection (B : Store D) (s : State D) (b : Nat) :
    (∀ db', B.characterTypeByBloodline s.db b = (none, db') →
      GetCharacterTypeByBloodline B s b =
        (none, { s with db := db', log := s.log ++ [.bloodlineQuery b] })) ∧
    (∀ t db', B.characterTypeByBloodline s.db b = (some t, db') →
      GetCharacterTypeByBloodline B s b =
        GetCharacterType B { s with db := db', log := s.log ++ [.bloodlineQuery b] } t ∧
      (GetCharacterTypeByBloodline B s b).2.m_categories = s.m_categories ∧
      (GetCharacterTypeByBloodline B s b).2.m_groups = s.m_groups ∧
      (GetCharacterTypeByBloodline B s b).2.m_items = s.m_items ∧
      (GetCharacterTypeByBloodline B s b).2.heap = s.heap ∧
      ∀ j, j ≠ t →
        IdMap.find (GetCharacterTypeByBloodline B s b).2.m_types j = IdMap.find s.m_types j) ∧
    (∀ t, B.characterTypeByBloodline s.db b = (some t, s.db) →
      (GetCharacterTypeByBloodline B s b).1 = (GetCharacterType B s t).1 ∧
      (GetCharacterTypeByBloodline B s b).2.m_types = (GetCharacterType B s t).2.m_types ∧
      (GetCharacterTypeByBloodline B s b).2.db = (GetCharacterType B s t).2.db) := by
  refine ⟨fun db' h => GetCharacterTypeByBloodline_none B s b db' h, ?_, ?_⟩
  · intro t db' h
    rw [GetCharacterTypeByBloodline_some B s b t db' h]
    obtain ⟨h1, h2, h3, h4, _, h6⟩ :=
      typeGet_frame .characterType B { s with db := db', log := s.log ++ [.bloodlineQuery b] } t
    exact ⟨rfl, h1, h2, h3, h4, h6⟩
  · intro t h
    rw [GetCharacterTypeByBloodline_some B s b t s.db h]
    exact typeGet_log_irrelevant .characterType B s t (s.log ++ [.bloodlineQuery b])

/-- C11 at concrete runs on the sample store: bloodline 40 is unknown; bloodline 4 belongs to
character type 5, which is loaded and cached under 5 only. -/
theorem bloodline_indirection_witness :
    GetCharacterTypeByBloodline sampleStore (State.empty 0) 40 =
      (none, { State.empty 1 with log := [.bloodlineQuery 40] }) ∧
    GetCharacterTypeByBloodline sampleStore (State.empty 0) 4 =
      GetCharacterType sampleStore { State.empty 1 with log := [.bloodlineQuery 4] } 5 ∧
    GetCharacterTypeByBloodline sampleStore (State.empty 0) 4 =
      (some ⟨.characterType, ⟨.characterType, 5, 305⟩⟩,
        { State.empty 2 with m_types := [(5, ⟨.characterType, 5, 305⟩)],
                             log := [.bloodlineQuery 4, .typeLoad .characterType 5] }) :=
  ⟨(bloodline_indirection sampleStore (State.empty 0) 40).1 1 (by decide),
    ((bloodline_indirection sampleStore (State.empty 0) 4).2.1 5 1 (by decide)).1,
    by decide⟩

/-! ## Recursive get on a hit -/

/-- C12 (recursive get on a cache hit), for GetItem, GetBlueprint and GetCharacter
(`entityGet k`) and an id cached under a live entity.  With `recurse` set the call first logs
`LoadContents(true)` on the cached entity; if that reports success the call counts one more
reference and returns the cached pointer; if it reports failure the call returns `NULL`, and
the state reached has the heap and the id-to-entity map of the state before, so no reference
was counted and the entry is still cached.  With `recurse` not set the call logs no contents
load, only the reference it counts. -/
theorem recursive_get_on_hit (k : ItemKind) (B : Store D) (s : State D) (id : Nat) (p : Ptr)
    (o : InventoryItem) (hf : IdMap.find s.m_items id = some p)
    (hd : deref s.heap p = some o) :
    entityGet k B s id true =
      (if (B.loadContents s.db o true).1 then
        .ok (some ⟨k, p⟩)
          { s with heap := s.heap.set p
                     { o with refCount := o.refCount + 1, contentsLoaded := true },
                   db := (B.loadContents s.db o true).2,
                   log := s.log ++ [.loadContents p true, .incRef p] }
      else
        .ok none { s with db := (B.loadContents s.db o true).2,
                          log := s.log ++ [.loadContents p true] }) ∧
    entityGet k B s id false =
      .ok (some ⟨k, p⟩)
        { s with heap := s.heap.set p { o with refCount := o.refCount + 1 },
                 log := s.log ++ [.incRef p] } := by
  refine ⟨?_, ?_⟩
  · rw [entityGet_hit_live k B s id true p o hf hd]
    simp
  · rw [entityGet_hit_live k B s id false p o hf hd]
    simp

/-- C12 at a concrete state: id 5 is cached under pointer 0, and the sample store cannot load
the contents of that entity. -/
theorem recursive_get_on_hit_witness :
    entityGet .item sampleStore afterGetItem5 5 true =
      (if (sampleStore.loadContents afterGetItem5.db ⟨.item, 5, 2, false, 405⟩ true).1 then
        .ok (some ⟨.item, 0⟩)
          { afterGetItem5 with
            heap := afterGetItem5.heap.set 0
              { (⟨.item, 5, 2, false, 405⟩ : InventoryItem) with
                refCount := (⟨.item, 5, 2, false, 405⟩ : InventoryItem).refCount + 1,
                contentsLoaded := true }
            db := (sampleStore.loadContents afterGetItem5.db ⟨.item, 5, 2, false, 405⟩ true).2
            log := afterGetItem5.log ++ [.loadContents 0 true, .incRef 0] }
      else
        .ok none
          { afterGetItem5 with
            db := (sampleStore.loadContents afterGetItem5.db ⟨.item, 5, 2, false, 405⟩ true).2
            log := afterGetItem5.log ++ [.loadContents 0 true] }) ∧
    entityGet .item sampleStore afterGetItem5 5 false =
      .ok (some ⟨.item, 0⟩)
        { afterGetItem5 with
          heap := afterGetItem5.heap.set 0
            { (⟨.item, 5, 2, false, 405⟩ : InventoryItem) with
              refCount := (⟨.item, 5, 2, false, 405⟩ : InventoryItem).refCount + 1 }
          log := afterGetItem5.log ++ [.incRef 0] } :=
  recursive_get_on_hit .item sampleStore afterGetItem5 5 0 ⟨.item, 5, 2, false, 405⟩ (by decide)
    (by decide)

/-- The concrete runs of C12 evaluated, for a failing and for a succeeding contents load. -/
theorem recursive_get_runs :
    GetItem sampleStore afterGetItem5 5 true =
      .ok none { afterGetItem5 with db := 2, log := afterGetItem5.log ++ [.loadContents 0 true] } ∧
    GetCharacter sampleStore afterGetBlueprint4 4 true =
      .ok (some ⟨.character, 0⟩)
        { afterGetBlueprint4 with
          heap := [⟨.blueprint, 4, 3, true, 404⟩]
          db := 2
          log := afterGetBlueprint4.log ++ [.loadContents 0 true, .incRef 0] } := by
  decide

/-! ## The cache probe -/

/-- C17 (`_GetIfContentsLoaded` is a pure cache probe).  The function takes no store, so it
can call neither `Load` nor `LoadContents`.  For an id that is not cached, and for an id
cached under a live entity that does not report its contents loaded, it returns `NULL` and
the state is unchanged.  For an id cached under a live entity that reports its contents
loaded it returns the cached pointer, and the state reached differs from the state before only
by one more reference counted on that entity and the log entry of that increment; the
id-to-entity map is the same in every case. -/
theorem getIfContentsLoaded_probe (s : State D) (id : Nat) :
    (IdMap.find s.m_items id = none → _GetIfContentsLoaded s id = .ok none s) ∧
    (∀ p o, IdMap.find s.m_items id = some p → deref s.heap p = some o →
      _GetIfContentsLoaded s id =
        if o.contentsLoaded then
          .ok (some ⟨.item, p⟩)
            { s with heap := s.heap.set p { o with refCount := o.refCount + 1 },
                     log := s.log ++ [.incRef p] }
        else .ok none s) := by
  refine ⟨?_, ?_⟩
  · intro hf
    simp [_GetIfContentsLoaded, hf]
  · intro p o hf hd
    cases hc : o.contentsLoaded with
    | false => simp [_GetIfContentsLoaded, hf, ContentsLoaded, hd, hc]
    | true =>
      simp [_GetIfContentsLoaded, hf, ContentsLoaded, hd, hc, returnRef_live .item s p o hd]

/-- C17 at concrete states: id 9 is not cached; id 5 is cached without its contents; id 4 is
cached with its contents loaded. -/
theorem getIfContentsLoaded_probe_witness :
    _GetIfContentsLoaded afterGetItem5 9 = .ok none afterGetItem5 ∧
    _GetIfContentsLoaded afterGetItem5 5 =
      (if (⟨.item, 5, 2, false, 405⟩ : InventoryItem).contentsLoaded then
        .ok (some ⟨.item, 0⟩)
          { afterGetItem5 with
            heap := afterGetItem5.heap.set 0 ⟨.item, 5, 3, false, 405⟩
            log := afterGetItem5.log ++ [.incRef 0] }
      else .ok none afterGetItem5) ∧
    _GetIfContentsLoaded afterGetItem4 4 =
      (if (⟨.blueprint, 4, 3, true, 404⟩ : InventoryItem).contentsLoaded then
        .ok (some ⟨.item, 0⟩)
          { afterGetItem4 with
            heap := afterGetItem4.heap.set 0 ⟨.blueprint, 4, 4, true, 404⟩
            log := afterGetItem4.log ++ [.incRef 0] }
      else .ok none afterGetItem4) :=
  ⟨(getIfContentsLoaded_probe afterGetItem5 9).1 (by decide),
    (getIfContentsLoaded_probe afterGetItem5 5).2 0 ⟨.item, 5, 2, false, 405⟩ (by decide)
      (by decide),
    (getIfContentsLoaded_probe afterGetItem4 4).2 0 ⟨.blueprint, 4, 3, true, 404⟩ (by decide)
      (by decide)⟩

/-! ## One operation, case by case -/

theorem entityGet_hit_dead (k : ItemKind) (B : Store D) (s : State D) (id : Nat) (recurse : Bool)
    (p : Ptr) (hf : IdMap.find s.m_items id = some p) (hd : deref s.heap p = none) :
    entityGet k B s id recurse = .fault := by
  rw [entityGet_hit k B s id recurse p hf]
  cases recurse with
  | false => simp [returnRef_dead k s p hd]
  | true => simp [LoadContents, hd]

theorem _DeleteItem_hit_dead (s : State D) (id : Nat) (p : Ptr)
    (hf : IdMap.find s.m_items id = some p) (hd : deref s.heap p = none) :
    _DeleteItem s id = .fault := by
  simp [_DeleteItem, hf, DecRef, hd]

theorem _GetIfContentsLoaded_hit_dead (s : State D) (id : Nat) (p : Ptr)
    (hf : IdMap.find s.m_items id = some p) (hd : deref s.heap p = none) :
    _GetIfContentsLoaded s id = .fault := by
  simp [_GetIfContentsLoaded, hf, ContentsLoaded, hd]

theorem GetCharacterTypeByBloodline_frame (B : Store D) (s : State D) (b : Nat) :
    (GetCharacterTypeByBloodline B s b).2.m_categories = s.m_categories ∧
    (GetCharacterTypeByBloodline B s b).2.m_groups = s.m_groups ∧
    (GetCharacterTypeByBloodline B s b).2.m_items = s.m_items ∧
    (GetCharacterTypeByBloodline B s b).2.heap = s.heap ∧
    (∀ j n, IdMap.find s.m_types j = some n →
      IdMap.find (GetCharacterTypeByBloodline B s b).2.m_types j = some n) := by
  rcases h : B.characterTypeByBloodline s.db b with ⟨r, db'⟩
  cases r with
  | none =>
    rw [GetCharacterTypeByBloodline_none B s b db' h]
    exact ⟨rfl, rfl, rfl, rfl, fun _ _ h => h⟩
  | some t =>
    rw [GetCharacterTypeByBloodline_some B s b t db' h]
    obtain ⟨h1, h2, h3, h4, h5, _⟩ :=
      typeGet_frame .characterType B { s with db := db', log := s.log ++ [.bloodlineQuery b] } t
    exact ⟨h1, h2, h3, h4, h5⟩

/-- Every way one operation can complete, as seen from the entity cache: (1) nothing is handed
out and neither the id-to-entity map nor the heap changes; (2) a reference to a cached live
entity is handed out and counted; (3) a loaded entity is put in a fresh cell, cached under the
requested id, and handed out; (4) a spawned entity is put in a fresh cell, stored under its
own item id, and handed out; (5) an entry is erased and its entity released.  An operation
on the entity cache leaves the three taxonomy maps as they are. -/
theorem Op.run_cases {B : Store D} {s s1 : State D} {op : Op} {r : Option ItemRef}
    (h : op.run B s = .ok r s1) :
    (op.isEntityOp = true →
      s1.m_categories = s.m_categories ∧ s1.m_groups = s.m_groups ∧ s1.m_types = s.m_types) ∧
    ((r = none ∧ s1.m_items = s.m_items ∧ s1.heap = s.heap) ∨
     (∃ id p o c k, IdMap.find s.m_items id = some p ∧ deref s.heap p = some o ∧
        r = some ⟨k, p⟩ ∧ s1.m_items = s.m_items ∧
        s1.heap = s.heap.set p { o with refCount := o.refCount + 1, contentsLoaded := c }) ∨
     (∃ k id recurse o db', IdMap.find s.m_items id = none ∧
        B.itemLoad k s.db id recurse = (some o, db') ∧ o.refCount ≠ 0 ∧
        r = some ⟨k, s.heap.length⟩ ∧
        s1.m_items = IdMap.place id s.heap.length s.m_items ∧
        s1.heap = s.heap ++ [{ k.tag o with refCount := o.refCount + 1 }]) ∨
     (∃ args o db', B.spawn s.db args = (some o, db') ∧ o.refCount ≠ 0 ∧
        r = some ⟨args.kind, s.heap.length⟩ ∧
        s1.m_items = IdMap.assign s.m_items o.itemID s.heap.length ∧
        s1.heap = s.heap ++ [{ args.kind.tag o with refCount := o.refCount + 1 }]) ∨
     (∃ id p o, IdMap.find s.m_items id = some p ∧ deref s.heap p = some o ∧ r = none ∧
        s1.m_items = IdMap.erase s.m_items id ∧
        s1.heap = s.heap.set p { o with refCount := o.refCount - 1 })) := by
  cases op with
  | getCategory c =>
    simp only [Op.run, Result.ok.injEq] at h
    obtain ⟨hr, hs⟩ := h
    subst hr; subst hs
    obtain ⟨_, _, h3, h4, _⟩ := GetCategory_frame B s c
    exact ⟨fun he => (by cases he), Or.inl ⟨rfl, h3, h4⟩⟩
  | getGroup g =>
    simp only [Op.run, Result.ok.injEq] at h
    obtain ⟨hr, hs⟩ := h
    subst hr; subst hs
    obtain ⟨_, _, h3, h4, _⟩ := GetGroup_frame B s g
    exact ⟨fun he => (by cases he), Or.inl ⟨rfl, h3, h4⟩⟩
  | getType k id =>
    simp only [Op.run, Result.ok.injEq] at h
    obtain ⟨hr, hs⟩ := h
    subst hr; subst hs
    obtain ⟨_, _, h3, h4, _⟩ := typeGet_frame k B s id
    exact ⟨fun he => (by cases he), Or.inl ⟨rfl, h3, h4⟩⟩
  | getCharacterTypeByBloodline b =>
    simp only [Op.run, Result.ok.injEq] at h
    obtain ⟨hr, hs⟩ := h
    subst hr; subst hs
    obtain ⟨_, _, h3, h4, _⟩ := GetCharacterTypeByBloodline_frame B s b
    exact ⟨fun he => (by cases he), Or.inl ⟨rfl, h3, h4⟩⟩
  | getEntity k id recurse =>
    simp only [Op.run] at h
    cases hf : IdMap.find s.m_items id with
    | none =>
      rcases hl : B.itemLoad k s.db id recurse with ⟨ro, db'⟩
      cases ro with
      | none =>
        rw [entityGet_miss_none k B s id recurse db' hf hl] at h
        simp only [Result.ok.injEq] at h
        obtain ⟨hr, hs⟩ := h
        subst hr; subst hs
        exact ⟨fun _ => ⟨rfl, rfl, rfl⟩, Or.inl ⟨rfl, rfl, rfl⟩⟩
      | some o =>
        rw [entityGet_miss_some k B s id recurse o db' hf hl] at h
        by_cases hz : o.refCount = 0
        · simp [hz] at h
        · simp only [hz, if_false, Result.ok.injEq] at h
          obtain ⟨hr, hs⟩ := h
          subst hr; subst hs
          exact ⟨fun _ => ⟨rfl, rfl, rfl⟩,
            Or.inr (Or.inr (Or.inl ⟨k, id, recurse, o, db', hf, hl, hz, rfl, rfl, rfl⟩))⟩
    | some p =>
      cases hd : deref s.heap p with
      | none =>
        rw [entityGet_hit_dead k B s id recurse p hf hd] at h
        cases h
      | some o =>
        rw [entityGet_hit_live k B s id recurse p o hf hd] at h
        cases recurse with
        | false =>
          simp only [Bool.false_eq_true, if_false, Result.ok.injEq] at h
          obtain ⟨hr, hs⟩ := h
          subst hr; subst hs
          exact ⟨fun _ => ⟨rfl, rfl, rfl⟩,
            Or.inr (Or.inl ⟨id, p, o, o.contentsLoaded, k, hf, hd, rfl, rfl, rfl⟩)⟩
        | true =>
          cases hl : (B.loadContents s.db o true).1 with
          | false =>
            simp only [if_true, hl, Bool.false_eq_true, if_false, Result.ok.injEq] at h
            obtain ⟨hr, hs⟩ := h
            subst hr; subst hs
            exact ⟨fun _ => ⟨rfl, rfl, rfl⟩, Or.inl ⟨rfl, rfl, rfl⟩⟩
          | true =>
            simp only [if_true, hl, Result.ok.injEq] at h
            obtain ⟨hr, hs⟩ := h
            subst hr; subst hs
            exact ⟨fun _ => ⟨rfl, rfl, rfl⟩,
              Or.inr (Or.inl ⟨id, p, o, true, k, hf, hd, rfl, rfl, rfl⟩)⟩
  | spawn args =>
    simp only [Op.run] at h
    rcases hl : B.spawn s.db args with ⟨ro, db'⟩
    cases ro with
    | none =>
      rw [entitySpawn_none B s args db' hl] at h
      simp only [Result.ok.injEq] at h
      obtain ⟨hr, hs⟩ := h
      subst hr; subst hs
      exact ⟨fun _ => ⟨rfl, rfl, rfl⟩, Or.inl ⟨rfl, rfl, rfl⟩⟩
    | some o =>
      rw [entitySpawn_some B s args o db' hl] at h
      by_cases hz : o.refCount = 0
      · simp [hz] at h
      · simp only [hz, if_false, Result.ok.injEq] at h
        obtain ⟨hr, hs⟩ := h
        subst hr; subst hs
        exact ⟨fun _ => ⟨rfl, rfl, rfl⟩,
          Or.inr (Or.inr (Or.inr (Or.inl ⟨args, o, db', hl, hz, rfl, rfl, rfl⟩)))⟩
  | getIfContentsLoaded id =>
    simp only [Op.run] at h
    cases hf : IdMap.find s.m_items id with
    | none =>
      rw [(getIfContentsLoaded_probe s id).1 hf] at h
      simp only [Result.ok.injEq] at h
      obtain ⟨hr, hs⟩ := h
      subst hr; subst hs
      exact ⟨fun _ => ⟨rfl, rfl, rfl⟩, Or.inl ⟨rfl, rfl, rfl⟩⟩
    | some p =>
      cases hd : deref s.heap p with
      | none =>
        rw [_GetIfContentsLoaded_hit_dead s id p hf hd] at h
        cases h
      | some o =>
        rw [(getIfContentsLoaded_probe s id).2 p o hf hd] at h
        cases hc : o.contentsLoaded with
        | false =>
          simp only [hc, Bool.false_eq_true, if_false, Result.ok.injEq] at h
          obtain ⟨hr, hs⟩ := h
          subst hr; subst hs
          exact ⟨fun _ => ⟨rfl, rfl, rfl⟩, Or.inl ⟨rfl, rfl, rfl⟩⟩
        | true =>
          simp only [hc, if_true, Result.ok.injEq] at h
          obtain ⟨hr, hs⟩ := h
          subst hr; subst hs
          exact ⟨fun _ => ⟨rfl, rfl, rfl⟩,
            Or.inr (Or.inl ⟨id, p, o, true, .item, hf, hd, rfl, rfl, rfl⟩)⟩
  | deleteItem id =>
    simp only [Op.run] at h
    cases hf : IdMap.find s.m_items id with
    | none =>
      rw [_DeleteItem_miss s id hf] at h
      simp only [Result.ok.injEq] at h
      obtain ⟨hr, hs⟩ := h
      subst hr; subst hs
      exact ⟨fun _ => ⟨rfl, rfl, rfl⟩, Or.inl ⟨rfl, rfl, rfl⟩⟩
    | some p =>
      cases hd : deref s.heap p with
      | none =>
        rw [_DeleteItem_hit_dead s id p hf hd] at h
        cases h
      | some o =>
        rw [_DeleteItem_hit_live s id p o hf hd] at h
        simp only [Result.ok.injEq] at h
        obtain ⟨hr, hs⟩ := h
        subst hr; subst hs
        exact ⟨fun _ => ⟨rfl, rfl, rfl⟩,
          Or.inr (Or.inr (Or.inr (Or.inr ⟨id, p, o, hf, hd, rfl, rfl, rfl⟩)))⟩

/-! ## No eviction of taxonomy nodes -/

/-- One completed operation keeps every entry of the three taxonomy maps. -/
theorem Op.run_taxonomy {B : Store D} {s s1 : State D} {op : Op} {r : Option ItemRef}
    (h : op.run B s = .ok r s1) :
    (∀ id n, IdMap.find s.m_categories id = some n → IdMap.find s1.m_categories id = some n) ∧
    (∀ id n, IdMap.find s.m_groups id = some n → IdMap.find s1.m_groups id = some n) ∧
    (∀ id n, IdMap.find s.m_types id = some n → IdMap.find s1.m_types id = some n) := by
  have hsame : s1.m_categories = s.m_categories → s1.m_groups = s.m_groups →
      s1.m_types = s.m_types →
      (∀ id n, IdMap.find s.m_categories id = some n →
        IdMap.find s1.m_categories id = some n) ∧
      (∀ id n, IdMap.find s.m_groups id = some n → IdMap.find s1.m_groups id = some n) ∧
      (∀ id n, IdMap.find s.m_types id = some n → IdMap.find s1.m_types id = some n) := by
    intro h1 h2 h3
    rw [h1, h2, h3]
    exact ⟨fun _ _ h => h, fun _ _ h => h, fun _ _ h => h⟩
  have hent := (Op.run_cases h).1
  cases op with
  | getCategory c =>
    simp only [Op.run, Result.ok.injEq] at h
    obtain ⟨_, hs⟩ := h
    subst hs
    obtain ⟨h1, h2, _, _, h5⟩ := GetCategory_frame B s c
    rw [h1, h2]
    exact ⟨h5, fun _ _ h => h, fun _ _ h => h⟩
  | getGroup g =>
    simp only [Op.run, Result.ok.injEq] at h
    obtain ⟨_, hs⟩ := h
    subst hs
    obtain ⟨h1, h2, _, _, h5⟩ := GetGroup_frame B s g
    rw [h1, h2]
    exact ⟨fun _ _ h => h, h5, fun _ _ h => h⟩
  | getType k id =>
    simp only [Op.run, Result.ok.injEq] at h
    obtain ⟨_, hs⟩ := h
    subst hs
    obtain ⟨h1, h2, _, _, h5, _⟩ := typeGet_frame k B s id
    rw [h1, h2]
    exact ⟨fun _ _ h => h, fun _ _ h => h, h5⟩
  | getCharacterTypeByBloodline b =>
    simp only [Op.run, Result.ok.injEq] at h
    obtain ⟨_, hs⟩ := h
    subst hs
    obtain ⟨h1, h2, _, _, h5⟩ := GetCharacterTypeByBloodline_frame B s b
    rw [h1, h2]
    exact ⟨fun _ _ h => h, fun _ _ h => h, h5⟩
  | getEntity k id recurse => obtain ⟨h1, h2, h3⟩ := hent rfl; exact hsame h1 h2 h3
  | spawn args => obtain ⟨h1, h2, h3⟩ := hent rfl; exact hsame h1 h2 h3
  | getIfContentsLoaded id => obtain ⟨h1, h2, h3⟩ := hent rfl; exact hsame h1 h2 h3
  | deleteItem id => obtain ⟨h1, h2, h3⟩ := hent rfl; exact hsame h1 h2 h3

/-- C14 (no eviction of taxonomy nodes): after any finite sequence of operations other than
teardown that runs to its end (taxonomy accessors, entity accessors, spawns,
`_GetIfContentsLoaded`, `_DeleteItem`, returning a value or not), every entry that was in the
category, group or type map before the sequence is there afterwards with the same node; and
when the sequence consists of operations on the entity cache only, the three maps are equal
to what they were. -/
theorem no_eviction (B : Store D) (ops : List Op) (s s1 : State D)
    (h : runOps B s ops = some s1) :
    (∀ id n, IdMap.find s.m_categories id = some n → IdMap.find s1.m_categories id = some n) ∧
    (∀ id n, IdMap.find s.m_groups id = some n → IdMap.find s1.m_groups id = some n) ∧
    (∀ id n, IdMap.find s.m_types id = some n → IdMap.find s1.m_types id = some n) ∧
    ((∀ op ∈ ops, op.isEntityOp = true) →
      s1.m_categories = s.m_categories ∧ s1.m_groups = s.m_groups ∧ s1.m_types = s.m_types) := by
  induction ops generalizing s with
  | nil =>
    simp only [runOps, Option.some.injEq] at h
    subst h
    exact ⟨fun _ _ h => h, fun _ _ h => h, fun _ _ h => h, fun _ => ⟨rfl, rfl, rfl⟩⟩
  | cons op rest ih =>
    simp only [runOps] at h
    cases hop : op.run B s with
    | fault => rw [hop] at h; cases h
    | ok r s2 =>
      rw [hop] at h
      obtain ⟨hc, hg, ht⟩ := Op.run_taxonomy hop
      obtain ⟨ic, ig, it, ie⟩ := ih s2 h
      refine ⟨fun id n hn => ic id n (hc id n hn), fun id n hn => ig id n (hg id n hn),
        fun id n hn => it id n (ht id n hn), ?_⟩
      intro hall
      obtain ⟨e1, e2, e3⟩ := (Op.run_cases hop).1 (hall op (List.mem_cons_self _ _))
      obtain ⟨f1, f2, f3⟩ := ie (fun o ho => hall o (List.mem_cons_of_mem _ ho))
      exact ⟨f1.trans e1, f2.trans e2, f3.trans e3⟩

/-- C14 at a concrete run: from a state with one node in each taxonomy map, through
`mixedRun`. -/
theorem no_eviction_witness :
    (∀ id n, IdMap.find twoItems.m_categories id = some n →
      IdMap.find afterMixedRun.m_categories id = some n) ∧
    (∀ id n, IdMap.find twoItems.m_groups id = some n →
      IdMap.find afterMixedRun.m_groups id = some n) ∧
    (∀ id n, IdMap.find twoItems.m_types id = some n →
      IdMap.find afterMixedRun.m_types id = some n) ∧
    ((∀ op ∈ mixedRun, op.isEntityOp = true) →
      afterMixedRun.m_categories = twoItems.m_categories ∧
      afterMixedRun.m_groups = twoItems.m_groups ∧ afterMixedRun.m_types = twoItems.m_types) :=
  no_eviction sampleStore mixedRun twoItems afterMixedRun (by decide)

/-! ## Keys and item ids -/

theorem IdMap.find_assign {α : Type} (m : IdMap α) (k j : Nat) (v : α) :
    IdMap.find (IdMap.assign m k v) j = if j = k then some v else IdMap.find m j := by
  by_cases hj : j = k
  · rw [if_pos hj, hj]; exact IdMap.find_assign_self m k v
  · rw [if_neg hj]; exact IdMap.find_assign_other m k j v hj

theorem IdMap.find_erase {α : Type} (m : IdMap α) (k j : Nat) :
    IdMap.find (IdMap.erase m k) j = if j = k then none else IdMap.find m j := by
  by_cases hj : j = k
  · rw [if_pos hj, hj]; exact IdMap.find_erase_self m k
  · rw [if_neg hj]; exact IdMap.find_erase_other m k j hj

theorem heap_set_lookup (h : Heap) (p q : Ptr) (t : InventoryItem) :
    (h.set p t)[q]? = if q = p then (if p < h.length then some t else none) else h[q]? := by
  by_cases hq : q = p
  · subst hq
    by_cases hlt : q < h.length
    · simp [List.getElem?_set_self hlt, hlt]
    · have hn : (h.set q t)[q]? = none :=
        List.getElem?_eq_none_iff.2 (by simpa using Nat.le_of_not_lt hlt)
      simp [hlt, hn]
  · simp [hq, List.getElem?_set_ne (Ne.symm hq)]

theorem heap_append_lookup (h : Heap) (q : Ptr) (t : InventoryItem) :
    (h ++ [t])[q]? = if q < h.length then h[q]? else if q = h.length then some t else none := by
  by_cases hlt : q < h.length
  · simp [hlt, List.getElem?_append_left hlt]
  · by_cases he : q = h.length
    · subst he
      simp
    · have hgt : h.length < q := Nat.lt_of_le_of_ne (Nat.le_of_not_lt hlt) (Ne.symm he)
      simp only [hlt, he, if_false]
      exact List.getElem?_eq_none_iff.2 (by simpa using hgt)

theorem lookup_lt {h : Heap} {q : Ptr} {o : InventoryItem} (hq : h[q]? = some o) :
    q < h.length :=
  (List.getElem?_eq_some.1 hq).1

/-- One completed operation keeps `KeysMatch`, when `Load(id)` returns entities of id `id`. -/
theorem KeysMatch_step {B : Store D} (hB : B.LoadsRequested) {s s1 : State D} {op : Op}
    {r : Option ItemRef} (h : op.run B s = .ok r s1) (hinv : KeysMatch s) : KeysMatch s1 := by
  rcases (Op.run_cases h).2 with ⟨_, hm, hh⟩ | ⟨id, p, o, c, k, hf, hd, _, hm, hh⟩ |
    ⟨k, id, recurse, o, db', hf, hl, hz, _, hm, hh⟩ | ⟨args, o, db', hl, hz, _, hm, hh⟩ |
    ⟨id, p, o, hf, hd, _, hm, hh⟩
  · intro j q hj
    rw [hm] at hj
    rw [hh]
    exact hinv j q hj
  · intro j q hj
    rw [hm] at hj
    obtain ⟨t, ht, hid⟩ := hinv j q hj
    rw [hh, heap_set_lookup]
    by_cases hq : q = p
    · subst hq
      have ho := (deref_some hd).1
      rw [ht] at ho
      cases ho
      simp only [if_true, lookup_lt ht]
      exact ⟨_, rfl, hid⟩
    · simp only [hq, if_false]
      exact ⟨t, ht, hid⟩
  · intro j q hj
    rw [hm, IdMap.find_place _ _ _ _ hf] at hj
    rw [hh, heap_append_lookup]
    by_cases hji : j = id
    · subst hji
      simp only [if_true, Option.some.injEq] at hj
      subst hj
      simp only [Nat.lt_irrefl, if_false, if_true]
      exact ⟨_, rfl, by simpa [tag_itemID] using hB k s.db j recurse o db' hl⟩
    · simp only [hji, if_false] at hj
      obtain ⟨t, ht, hid⟩ := hinv j q hj
      simp only [lookup_lt ht, if_true]
      exact ⟨t, ht, hid⟩
  · intro j q hj
    rw [hm, IdMap.find_assign] at hj
    rw [hh, heap_append_lookup]
    by_cases hji : j = o.itemID
    · simp only [hji, if_true, Option.some.injEq] at hj
      subst hj
      simp only [Nat.lt_irrefl, if_false, if_true]
      exact ⟨_, rfl, by simpa [tag_itemID] using hji.symm⟩
    · simp only [hji, if_false] at hj
      obtain ⟨t, ht, hid⟩ := hinv j q hj
      simp only [lookup_lt ht, if_true]
      exact ⟨t, ht, hid⟩
  · intro j q hj
    rw [hm, IdMap.find_erase] at hj
    by_cases hji : j = id
    · simp [hji] at hj
    · simp only [hji, if_false] at hj
      obtain ⟨t, ht, hid⟩ := hinv j q hj
      rw [hh, heap_set_lookup]
      by_cases hq : q = p
      · subst hq
        have ho := (deref_some hd).1
        rw [ht] at ho
        cases ho
        simp only [if_true, lookup_lt ht]
        exact ⟨_, rfl, hid⟩
      · simp only [hq, if_false]
        exact ⟨t, ht, hid⟩

theorem KeysMatch_run {B : Store D} (hB : B.LoadsRequested) (ops : List Op) :
    ∀ s s1 : State D, runOps B s ops = some s1 → KeysMatch s → KeysMatch s1 := by
  induction ops with
  | nil =>
    intro s s1 h hinv
    simp only [runOps, Option.some.injEq] at h
    subst h
    exact hinv
  | cons op rest ih =>
    intro s s1 h hinv
    simp only [runOps] at h
    cases hop : op.run B s with
    | fault => rw [hop] at h; cases h
    | ok r s2 =>
      rw [hop] at h
      exact ih s2 s1 h (KeysMatch_step hB hop hinv)

theorem sampleStore_loadsRequested : sampleStore.LoadsRequested := by
  intro k db id recurse o db' h
  simp only [sampleStore, Prod.mk.injEq] at h
  by_cases hid : id < 1000
  · simp only [hid, if_true, Option.some.injEq] at h
    rw [← h.1]
  · simp [hid] at h

/-- C16 (unique item id per entry): when every entity that `Load(id)` returns has item id
`id`, then in every state reached from the empty factory by a sequence of operations
(entity accessors, spawns, `_GetIfContentsLoaded`, `_DeleteItem`, and taxonomy accessors as
well) the key of every entry of the entity cache is the item id of the entity stored under it;
hence two entries whose entities have the same item id are one entry. -/
theorem unique_item_id (B : Store D) (hB : B.LoadsRequested) (db : D) (ops : List Op)
    (s : State D) (h : runOps B (State.empty db) ops = some s) :
    (∀ id p, IdMap.find s.m_items id = some p → ∃ o, s.heap[p]? = some o ∧ o.itemID = id) ∧
    (∀ id1 id2 p1 p2 o1 o2, IdMap.find s.m_items id1 = some p1 →
      IdMap.find s.m_items id2 = some p2 → s.heap[p1]? = some o1 → s.heap[p2]? = some o2 →
      o1.itemID = o2.itemID → id1 = id2 ∧ p1 = p2) := by
  have hk : KeysMatch s := by
    refine KeysMatch_run hB ops (State.empty db) s h ?_
    intro id p hf
    simp [State.empty, IdMap.find] at hf
  refine ⟨hk, ?_⟩
  intro id1 id2 p1 p2 o1 o2 h1 h2 g1 g2 he
  obtain ⟨t1, ht1, e1⟩ := hk id1 p1 h1
  obtain ⟨t2, ht2, e2⟩ := hk id2 p2 h2
  rw [g1] at ht1
  rw [g2] at ht2
  cases ht1
  cases ht2
  have hid : id1 = id2 := by rw [← e1, ← e2, he]
  subst hid
  rw [h1] at h2
  cases h2
  exact ⟨rfl, rfl⟩

/-- C16 at a concrete run: `entityRun` from the empty factory on the sample store. -/
theorem unique_item_id_witness :
    (∀ id p, IdMap.find afterEntityRun.m_items id = some p →
      ∃ o, afterEntityRun.heap[p]? = some o ∧ o.itemID = id) ∧
    (∀ id1 id2 p1 p2 o1 o2, IdMap.find afterEntityRun.m_items id1 = some p1 →
      IdMap.find afterEntityRun.m_items id2 = some p2 →
      afterEntityRun.heap[p1]? = some o1 → afterEntityRun.heap[p2]? = some o2 →
      o1.itemID = o2.itemID → id1 = id2 ∧ p1 = p2) :=
  unique_item_id sampleStore sampleStore_loadsRequested 0 entityRun afterEntityRun (by decide)

/-! ## The canonical reference -/

/-- Handing out a reference to a cached entity keeps the invariant. -/
theorem Canonical_handout {w : World D} {s1 : State D} {id : Nat} {p : Ptr} {o : InventoryItem}
    {c : Bool} (hinv : Canonical w) (hf : IdMap.find w.st.m_items id = some p)
    (hd : deref w.st.heap p = some o) (hm : s1.m_items = w.st.m_items)
    (hh : s1.heap = w.st.heap.set p { o with refCount := o.refCount + 1, contentsLoaded := c }) :
    Canonical ⟨s1, p :: w.held⟩ := by
  obtain ⟨h1, h2, h3⟩ := hinv
  have ho := (deref_some hd).1
  have hlt : p < w.st.heap.length := lookup_lt ho
  obtain ⟨t, ht, hc⟩ := h1 id p hf
  rw [ho] at ht
  cases ht
  refine ⟨?_, ?_, ?_⟩
  · intro j q hj
    rw [show (World.mk s1 (p :: w.held)).st.m_items = w.st.m_items from hm] at hj
    obtain ⟨t, ht, hct⟩ := h1 j q hj
    show ∃ o', s1.heap[q]? = some o' ∧ o'.refCount = 1 + List.count q (p :: w.held)
    rw [hh, heap_set_lookup]
    by_cases hq : q = p
    · subst hq
      simp only [if_true, hlt]
      refine ⟨_, rfl, ?_⟩
      show o.refCount + 1 = 1 + List.count q (q :: w.held)
      rw [List.count_cons_self, hc]
      omega
    · simp only [hq, if_false]
      refine ⟨t, ht, ?_⟩
      rw [List.count_cons_of_ne hq]
      exact hct
  · intro id1 id2 q hq1 hq2
    rw [show (World.mk s1 (p :: w.held)).st.m_items = w.st.m_items from hm] at hq1 hq2
    exact h2 id1 id2 q hq1 hq2
  · intro x hx
    show ∃ o', s1.heap[x]? = some o' ∧ List.count x (p :: w.held) ≤ o'.refCount
    rw [hh, heap_set_lookup]
    by_cases hxp : x = p
    · subst hxp
      simp only [if_true, hlt]
      refine ⟨_, rfl, ?_⟩
      show List.count x (x :: w.held) ≤ o.refCount + 1
      rw [List.count_cons_self, hc]
      omega
    · have hx' : x ∈ w.held := by
        rcases List.mem_cons.1 hx with h | h
        · exact absurd h hxp
        · exact h
      obtain ⟨t, ht, hle⟩ := h3 x hx'
      simp only [hxp, if_false]
      refine ⟨t, ht, ?_⟩
      rw [List.count_cons_of_ne hxp]
      exact hle

/-- Caching a new entity with two references, one of them handed out, keeps the invariant:
the entity is in the fresh cell, and `key` is the only id whose entry changes. -/
theorem Canonical_new {w : World D} {s1 : State D} (key : Nat) {new : InventoryItem}
    (hinv : Canonical w)
    (hfind : ∀ j, IdMap.find s1.m_items j =
      if j = key then some w.st.heap.length else IdMap.find w.st.m_items j)
    (hh : s1.heap = w.st.heap ++ [new]) (hrc : new.refCount = 2) :
    Canonical ⟨s1, w.st.heap.length :: w.held⟩ := by
  obtain ⟨h1, h2, h3⟩ := hinv
  have hnot : w.st.heap.length ∉ w.held := by
    intro hmem
    obtain ⟨t, ht, _⟩ := h3 _ hmem
    exact Nat.lt_irrefl _ (lookup_lt ht)
  have hcount : List.count w.st.heap.length w.held = 0 := List.count_eq_zero_of_not_mem hnot
  have hold : ∀ j q, IdMap.find w.st.m_items j = some q → q ≠ w.st.heap.length := by
    intro j q hj
    obtain ⟨t, ht, _⟩ := h1 j q hj
    exact Nat.ne_of_lt (lookup_lt ht)
  refine ⟨?_, ?_, ?_⟩
  · intro j q hj
    have hj' : (if j = key then some w.st.heap.length else IdMap.find w.st.m_items j) =
        some q := by
      rw [← hfind j]; exact hj
    show ∃ o', s1.heap[q]? = some o' ∧
      o'.refCount = 1 + List.count q (w.st.heap.length :: w.held)
    rw [hh, heap_append_lookup]
    by_cases hjk : j = key
    · simp only [hjk, if_true, Option.some.injEq] at hj'
      subst hj'
      simp only [Nat.lt_irrefl, if_false, if_true]
      refine ⟨new, rfl, ?_⟩
      rw [List.count_cons_self, hcount, hrc]
    · simp only [hjk, if_false] at hj'
      obtain ⟨t, ht, hct⟩ := h1 j q hj'
      simp only [lookup_lt ht, if_true]
      refine ⟨t, ht, ?_⟩
      rw [List.count_cons_of_ne (hold j q hj')]
      exact hct
  · intro id1 id2 q hq1 hq2
    have hq1' : (if id1 = key then some w.st.heap.length else IdMap.find w.st.m_items id1) =
        some q := by
      rw [← hfind id1]; exact hq1
    have hq2' : (if id2 = key then some w.st.heap.length else IdMap.find w.st.m_items id2) =
        some q := by
      rw [← hfind id2]; exact hq2
    by_cases hk1 : id1 = key
    · by_cases hk2 : id2 = key
      · rw [hk1, hk2]
      · simp only [hk1, if_true, Option.some.injEq] at hq1'
        simp only [hk2, if_false] at hq2'
        exact absurd hq1'.symm (hold id2 q hq2')
    · by_cases hk2 : id2 = key
      · simp only [hk2, if_true, Option.some.injEq] at hq2'
        simp only [hk1, if_false] at hq1'
        exact absurd hq2'.symm (hold id1 q hq1')
      · simp only [hk1, if_false] at hq1'
        simp only [hk2, if_false] at hq2'
        exact h2 id1 id2 q hq1' hq2'
  · intro x hx
    show ∃ o', s1.heap[x]? = some o' ∧ List.count x (w.st.heap.length :: w.held) ≤ o'.refCount
    rw [hh, heap_append_lookup]
    by_cases hxl : x = w.st.heap.length
    · subst hxl
      simp only [Nat.lt_irrefl, if_false, if_true]
      refine ⟨new, rfl, ?_⟩
      rw [List.count_cons_self, hcount, hrc]
      decide
    · have hx' : x ∈ w.held := by
        rcases List.mem_cons.1 hx with h | h
        · exact absurd h hxl
        · exact h
      obtain ⟨t, ht, hle⟩ := h3 x hx'
      simp only [lookup_lt ht, if_true]
      refine ⟨t, ht, ?_⟩
      rw [List.count_cons_of_ne hxl]
      exact hle

/-- Erasing an entry and releasing its entity keeps the invariant. -/
theorem Canonical_delete {w : World D} {s1 : State D} {id : Nat} {p : Ptr} {o : InventoryItem}
    (hinv : Canonical w) (hf : IdMap.find w.st.m_items id = some p)
    (hd : deref w.st.heap p = some o) (hm : s1.m_items = IdMap.erase w.st.m_items id)
    (hh : s1.heap = w.st.heap.set p { o with refCount := o.refCount - 1 }) :
    Canonical ⟨s1, w.held⟩ := by
  obtain ⟨h1, h2, h3⟩ := hinv
  have ho := (deref_some hd).1
  have hlt : p < w.st.heap.length := lookup_lt ho
  obtain ⟨t, ht, hc⟩ := h1 id p hf
  rw [ho] at ht
  cases ht
  have hfind : ∀ j q, IdMap.find s1.m_items j = some q →
      j ≠ id ∧ IdMap.find w.st.m_items j = some q := by
    intro j q hj
    rw [hm, IdMap.find_erase] at hj
    by_cases hji : j = id
    · simp [hji] at hj
    · simp only [hji, if_false] at hj
      exact ⟨hji, hj⟩
  refine ⟨?_, ?_, ?_⟩
  · intro j q hj
    obtain ⟨hji, hj'⟩ := hfind j q hj
    have hq : q ≠ p := by
      intro hqp
      rw [hqp] at hj'
      exact hji (h2 j id p hj' hf)
    obtain ⟨t, ht, hct⟩ := h1 j q hj'
    show ∃ o', s1.heap[q]? = some o' ∧ o'.refCount = 1 + List.count q w.held
    rw [hh, heap_set_lookup]
    simp only [hq, if_false]
    exact ⟨t, ht, hct⟩
  · intro id1 id2 q hq1 hq2
    exact h2 id1 id2 q (hfind id1 q hq1).2 (hfind id2 q hq2).2
  · intro x hx
    show ∃ o', s1.heap[x]? = some o' ∧ List.count x w.held ≤ o'.refCount
    rw [hh, heap_set_lookup]
    by_cases hxp : x = p
    · subst hxp
      simp only [if_true, hlt]
      refine ⟨_, rfl, ?_⟩
      show List.count x w.held ≤ o.refCount - 1
      rw [hc]
      omega
    · obtain ⟨t, ht, hle⟩ := h3 x hx
      simp only [hxp, if_false]
      exact ⟨t, ht, hle⟩

/-- A caller releasing a reference it holds keeps the invariant. -/
theorem Canonical_release {w : World D} {s1 : State D} {p : Ptr} {o : InventoryItem}
    (hinv : Canonical w) (hp : p ∈ w.held) (hd : deref w.st.heap p = some o)
    (hm : s1.m_items = w.st.m_items)
    (hh : s1.heap = w.st.heap.set p { o with refCount := o.refCount - 1 }) :
    Canonical ⟨s1, w.held.erase p⟩ := by
  obtain ⟨h1, h2, h3⟩ := hinv
  have ho := (deref_some hd).1
  have hlt : p < w.st.heap.length := lookup_lt ho
  have hpos : 0 < List.count p w.held := List.count_pos_iff.2 hp
  refine ⟨?_, ?_, ?_⟩
  · intro j q hj
    rw [show (World.mk s1 (w.held.erase p)).st.m_items = w.st.m_items from hm] at hj
    obtain ⟨t, ht, hct⟩ := h1 j q hj
    show ∃ o', s1.heap[q]? = some o' ∧ o'.refCount = 1 + List.count q (w.held.erase p)
    rw [hh, heap_set_lookup]
    by_cases hq : q = p
    · subst hq
      rw [ho] at ht
      cases ht
      simp only [if_true, hlt]
      refine ⟨_, rfl, ?_⟩
      show o.refCount - 1 = 1 + List.count q (w.held.erase q)
      rw [List.count_erase_self, hct]
      omega
    · simp only [hq, if_false]
      refine ⟨t, ht, ?_⟩
      rw [List.count_erase_of_ne hq]
      exact hct
  · intro id1 id2 q hq1 hq2
    rw [show (World.mk s1 (w.held.erase p)).st.m_items = w.st.m_items from hm] at hq1 hq2
    exact h2 id1 id2 q hq1 hq2
  · intro x hx
    have hx' : x ∈ w.held := List.mem_of_mem_erase hx
    obtain ⟨t, ht, hle⟩ := h3 x hx'
    show ∃ o', s1.heap[x]? = some o' ∧ List.count x (w.held.erase p) ≤ o'.refCount
    rw [hh, heap_set_lookup]
    by_cases hxp : x = p
    · subst hxp
      rw [ho] at ht
      cases ht
      simp only [if_true, hlt]
      refine ⟨_, rfl, ?_⟩
      show List.count x (w.held.erase x) ≤ o.refCount - 1
      rw [List.count_erase_self]
      omega
    · simp only [hxp, if_false]
      refine ⟨t, ht, ?_⟩
      rw [List.count_erase_of_ne hxp]
      exact hle

theorem Canonical_same {w : World D} {s1 : State D} (hinv : Canonical w)
    (hm : s1.m_items = w.st.m_items) (hh : s1.heap = w.st.heap) : Canonical ⟨s1, w.held⟩ := by
  obtain ⟨h1, h2, h3⟩ := hinv
  refine ⟨?_, ?_, ?_⟩
  · intro j q hj
    show ∃ o', s1.heap[q]? = some o' ∧ o'.refCount = 1 + List.count q w.held
    rw [hh]
    exact h1 j q (by rw [← hm]; exact hj)
  · intro id1 id2 q hq1 hq2
    exact h2 id1 id2 q (by rw [← hm]; exact hq1) (by rw [← hm]; exact hq2)
  · intro x hx
    show ∃ o', s1.heap[x]? = some o' ∧ List.count x w.held ≤ o'.refCount
    rw [hh]
    exact h3 x hx

/-- One step keeps the invariant, when the store returns every entity with count 1. -/
theorem Canonical_step {B : Store D} (hB : B.Fresh) {w w1 : World D} {c : Call}
    (h : w.step B c = some w1) (hinv : Canonical w) : Canonical w1 := by
  cases c with
  | op o =>
    simp only [World.step] at h
    cases hop : o.run B w.st with
    | fault => rw [hop] at h; cases h
    | ok r s1 =>
      rw [hop] at h
      cases r with
      | none =>
        simp only [Option.some.injEq] at h
        subst h
        rcases (Op.run_cases hop).2 with ⟨_, hm, hh⟩ | ⟨id, p, o, c, k, _, _, hr, _, _⟩ |
          ⟨k, id, recurse, o, db', _, _, _, hr, _, _⟩ | ⟨args, o, db', _, _, hr, _, _⟩ |
          ⟨id, p, o, hf, hd, _, hm, hh⟩
        · exact Canonical_same hinv hm hh
        · cases hr
        · cases hr
        · cases hr
        · exact Canonical_delete hinv hf hd hm hh
      | some a =>
        simp only [Option.some.injEq] at h
        subst h
        rcases (Op.run_cases hop).2 with ⟨hr, _, _⟩ | ⟨id, p, o, c, k, hf, hd, hr, hm, hh⟩ |
          ⟨k, id, recurse, o, db', hf, hl, _, hr, hm, hh⟩ | ⟨args, o, db', hl, _, hr, hm, hh⟩ |
          ⟨id, p, o, _, _, hr, _, _⟩
        · cases hr
        · cases hr
          exact Canonical_handout hinv hf hd hm hh
        · cases hr
          refine Canonical_new id hinv ?_ hh ?_
          · intro j
            rw [hm]
            exact IdMap.find_place _ _ _ _ hf
          · show o.refCount + 1 = 2
            rw [hB.1 k w.st.db id recurse o db' hl]
        · cases hr
          refine Canonical_new o.itemID hinv ?_ hh ?_
          · intro j
            rw [hm]
            exact IdMap.find_assign _ _ _ _
          · show o.refCount + 1 = 2
            rw [hB.2 w.st.db args o db' hl]
        · cases hr
  | release p =>
    simp only [World.step] at h
    by_cases hp : p ∈ w.held
    · simp only [hp, if_true] at h
      cases hd : deref w.st.heap p with
      | none =>
        simp [DecRef, hd] at h
      | some o =>
        rw [DecRef_live w.st p o hd] at h
        simp only [Option.some.injEq] at h
        subst h
        exact Canonical_release hinv hp hd rfl rfl
    · simp [hp] at h

theorem Canonical_run {B : Store D} (hB : B.Fresh) (calls : List Call) :
    ∀ w w1 : World D, World.run B w calls = some w1 → Canonical w → Canonical w1 := by
  induction calls with
  | nil =>
    intro w w1 h hinv
    simp only [World.run, Option.some.injEq] at h
    subst h
    exact hinv
  | cons c rest ih =>
    intro w w1 h hinv
    simp only [World.run] at h
    cases hs : w.step B c with
    | none => rw [hs] at h; cases h
    | some w2 =>
      rw [hs] at h
      exact ih w2 w1 h (Canonical_step hB hs hinv)

theorem Canonical_initial (db : D) : Canonical (World.initial db) := by
  refine ⟨?_, ?_, ?_⟩
  · intro id p h
    simp [World.initial, State.empty, IdMap.find] at h
  · intro id1 id2 p h
    simp [World.initial, State.empty, IdMap.find] at h
  · intro p h
    simp [World.initial] at h

theorem sampleStore_fresh : sampleStore.Fresh := by
  refine ⟨?_, ?_⟩
  · intro k db id recurse o db' h
    simp only [sampleStore, Prod.mk.injEq] at h
    by_cases hid : id < 1000
    · simp only [hid, if_true, Option.some.injEq] at h
      rw [← h.1]
    · simp [hid] at h
  · intro db args o db' h
    cases args with
    | item data =>
      simp only [Store.spawn, sampleStore, Prod.mk.injEq] at h
      by_cases hc : data.code = 0
      · simp [hc] at h
      · simp only [hc, if_false, Option.some.injEq] at h
        rw [← h.1]
    | blueprint data bpData =>
      simp only [Store.spawn, sampleStore, Prod.mk.injEq] at h
      by_cases hc : data.code = 0
      · simp [hc] at h
      · simp only [hc, if_false, Option.some.injEq] at h
        rw [← h.1]
    | character data charData appData corpData =>
      simp only [Store.spawn, sampleStore, Prod.mk.injEq] at h
      by_cases hc : data.code = 0
      · simp [hc] at h
      · simp only [hc, if_false, Option.some.injEq] at h
        rw [← h.1]

/-- Under the invariant every operation runs to its end, when the store returns every entity
with count 1: a cached pointer denotes a live entity, and a new entity can be counted. -/
theorem Op.run_total {B : Store D} (hB : B.Fresh) {w : World D} (hinv : Canonical w) (op : Op) :
    ∃ r s1, op.run B w.st = .ok r s1 := by
  have hlive : ∀ id p, IdMap.find w.st.m_items id = some p →
      ∃ o, deref w.st.heap p = some o := by
    intro id p hf
    obtain ⟨o, ho, hc⟩ := hinv.1 id p hf
    refine ⟨o, ?_⟩
    have hz : o.refCount ≠ 0 := by rw [hc]; omega
    simp [deref, ho, hz]
  cases op with
  | getCategory c => exact ⟨_, _, rfl⟩
  | getGroup g => exact ⟨_, _, rfl⟩
  | getType k id => exact ⟨_, _, rfl⟩
  | getCharacterTypeByBloodline b => exact ⟨_, _, rfl⟩
  | getEntity k id recurse =>
    simp only [Op.run]
    cases hf : IdMap.find w.st.m_items id with
    | none =>
      rcases hl : B.itemLoad k w.st.db id recurse with ⟨ro, db'⟩
      cases ro with
      | none => exact ⟨_, _, entityGet_miss_none k B w.st id recurse db' hf hl⟩
      | some o =>
        have hz : o.refCount ≠ 0 := by rw [hB.1 k w.st.db id recurse o db' hl]; decide
        rw [entityGet_miss_some k B w.st id recurse o db' hf hl]
        simp only [hz, if_false]
        exact ⟨_, _, rfl⟩
    | some p =>
      obtain ⟨o, hd⟩ := hlive id p hf
      rw [entityGet_hit_live k B w.st id recurse p o hf hd]
      cases recurse with
      | false => exact ⟨_, _, rfl⟩
      | true =>
        cases (B.loadContents w.st.db o true).1 with
        | false => exact ⟨_, _, rfl⟩
        | true => exact ⟨_, _, rfl⟩
  | spawn args =>
    simp only [Op.run]
    rcases hl : B.spawn w.st.db args with ⟨ro, db'⟩
    cases ro with
    | none => exact ⟨_, _, entitySpawn_none B w.st args db' hl⟩
    | some o =>
      have hz : o.refCount ≠ 0 := by rw [hB.2 w.st.db args o db' hl]; decide
      rw [entitySpawn_some B w.st args o db' hl]
      simp only [hz, if_false]
      exact ⟨_, _, rfl⟩
  | getIfContentsLoaded id =>
    simp only [Op.run]
    cases hf : IdMap.find w.st.m_items id with
    | none => exact ⟨_, _, (getIfContentsLoaded_probe w.st id).1 hf⟩
    | some p =>
      obtain ⟨o, hd⟩ := hlive id p hf
      rw [(getIfContentsLoaded_probe w.st id).2 p o hf hd]
      cases o.contentsLoaded with
      | false => exact ⟨_, _, rfl⟩
      | true => exact ⟨_, _, rfl⟩
  | deleteItem id =>
    simp only [Op.run]
    cases hf : IdMap.find w.st.m_items id with
    | none =>
      rw [_DeleteItem_miss w.st id hf]
      exact ⟨_, _, rfl⟩
    | some p =>
      obtain ⟨o, hd⟩ := hlive id p hf
      rw [_DeleteItem_hit_live w.st id p o hf hd]
      exact ⟨_, _, rfl⟩

/-- C13 (canonical-reference invariant): assume the store returns every loaded or spawned
entity with reference count 1.  In every world reached from the empty factory by a sequence
of factory operations and of callers releasing references they hold: (1) each cached entity is
live and its count is 1 plus the number of references to it that callers hold, so it is never
zero; (2) every operation that hands out a reference leaves the entity it returns with one
count more than it had before the call, taking 1, the count it was loaded or spawned with,
for an entity that did not exist before; (3) every operation runs to its end; (4) every
reference a caller holds can be released. -/
theorem canonical_reference (B : Store D) (hB : B.Fresh) (db : D) (calls : List Call)
    (w : World D) (h : World.run B (World.initial db) calls = some w) :
    (∀ id p, IdMap.find w.st.m_items id = some p →
      ∃ o, deref w.st.heap p = some o ∧ o.refCount = 1 + w.held.count p) ∧
    (∀ op r s1, Op.run B w.st op = .ok (some r) s1 →
      ∃ o1, deref s1.heap r.ptr = some o1 ∧
        o1.refCount =
          (match w.st.heap[r.ptr]? with
            | some o0 => o0.refCount
            | none => 1) + 1) ∧
    (∀ op, ∃ r s1, Op.run B w.st op = .ok r s1) ∧
    (∀ p, p ∈ w.held → ∃ w1, w.step B (.release p) = some w1) := by
  have hinv : Canonical w := Canonical_run hB calls _ w h (Canonical_initial db)
  refine ⟨?_, ?_, fun op => Op.run_total hB hinv op, ?_⟩
  · intro id p hf
    obtain ⟨o, ho, hc⟩ := hinv.1 id p hf
    have hz : o.refCount ≠ 0 := by rw [hc]; omega
    exact ⟨o, by simp [deref, ho, hz], hc⟩
  · intro op r s1 hop
    rcases (Op.run_cases hop).2 with ⟨hr, _, _⟩ | ⟨id, p, o, c, k, hf, hd, hr, hm, hh⟩ |
      ⟨k, id, recurse, o, db', hf, hl, hz, hr, hm, hh⟩ | ⟨args, o, db', hl, hz, hr, hm, hh⟩ |
      ⟨id, p, o, _, _, hr, _, _⟩
    · cases hr
    · cases hr
      refine ⟨{ o with refCount := o.refCount + 1, contentsLoaded := c }, ?_, ?_⟩
      · rw [hh]
        exact deref_set_self hd (by simp)
      · simp [(deref_some hd).1]
    · cases hr
      refine ⟨{ k.tag o with refCount := o.refCount + 1 }, ?_, ?_⟩
      · rw [hh]
        exact deref_append_new _ _ (by simp)
      · simp [hB.1 k w.st.db id recurse o db' hl]
    · cases hr
      refine ⟨{ args.kind.tag o with refCount := o.refCount + 1 }, ?_, ?_⟩
      · rw [hh]
        exact deref_append_new _ _ (by simp)
      · simp [hB.2 w.st.db args o db' hl]
    · cases hr
  · intro p hp
    obtain ⟨o, ho, hle⟩ := hinv.2.2 p hp
    have hpos : 0 < List.count p w.held := List.count_pos_iff.2 hp
    have hz : o.refCount ≠ 0 := by omega
    have hd : deref w.st.heap p = some o := by simp [deref, ho, hz]
    refine ⟨⟨{ w.st with
                heap := w.st.heap.set p { o with refCount := o.refCount - 1 }
                log := w.st.log ++ [.decRef p] }, w.held.erase p⟩, ?_⟩
    simp only [World.step, hp, if_true, DecRef_live w.st p o hd]

/-- C13 at a concrete run: `callerRun` from the empty factory on the sample store. -/
theorem canonical_reference_witness :
    (∀ id p, IdMap.find afterCallerRun.st.m_items id = some p →
      ∃ o, deref afterCallerRun.st.heap p = some o ∧
        o.refCount = 1 + afterCallerRun.held.count p) ∧
    (∀ op r s1, Op.run sampleStore afterCallerRun.st op = .ok (some r) s1 →
      ∃ o1, deref s1.heap r.ptr = some o1 ∧
        o1.refCount =
          (match afterCallerRun.st.heap[r.ptr]? with
            | some o0 => o0.refCount
            | none => 1) + 1) ∧
    (∀ op, ∃ r s1, Op.run sampleStore afterCallerRun.st op = .ok r s1) ∧
    (∀ p, p ∈ afterCallerRun.held →
      ∃ w1, afterCallerRun.step sampleStore (.release p) = some w1) :=
  canonical_reference sampleStore sampleStore_fresh 0 callerRun afterCallerRun (by decide)

end EVEmu
